import Mathlib

/-!
# BookLibrary: a verification development for `src/bookLibrary.js`

The class `BookLibrary` keeps an array `this.books` of book objects and a counter
`this.nextId`.  The embedding below follows the JavaScript source method by method.

Modelling conventions.

* A JavaScript argument is a `JSVal`.  Integral numbers are exact integers (`JSVal.num`);
  every other number (fractional, `NaN`, the infinities) is `JSVal.nonIntNum`: the source only
  applies `Number.isInteger`, `<`, `>` and `===` against an integral id to numbers, and all of
  these are decided by this split.  The counter `nextId` is a natural number (the idealisation
  of a double below `2^53`).
* The clock (`new Date()`) is an explicit argument of the methods that consult it.
* A method that throws is modelled by a pair: the state after the call and `Except.error`.
  The state is returned also on failure because a method may assign before it throws.
* The argument `updates` of `updateBook` is a `JSObject`: its own enumerable properties, which
  `Object.keys` lists, and the other properties that a read such as `updates.title` finds
  (non-enumerable or inherited ones).
* A `Book` value returned by a method is the fresh object built by the object spread.
  The two sorting accessors return the stored objects themselves; these are `StoredRef`s.
-/

namespace BookLibrary

/-! ## JavaScript values -/

/-- The result of `typeof`, as far as the source distinguishes it. -/
inductive JSType
  | undefined | object | boolean | number | string
  deriving DecidableEq, Repr

/-- A JavaScript value passed to a method of the class. -/
inductive JSVal
  | undefined
  | null
  | bool (b : Bool)
  /-- An integral number. -/
  | num (n : Int)
  /-- A number that is not an integer: fractional, `NaN`, `Infinity`, `-Infinity`. -/
  | nonIntNum
  | str (s : String)
  /-- Any object (plain object, array, function): truthy, never a string or a number. -/
  | object
  deriving DecidableEq, Repr

namespace JSVal

/-- The value of `typeof v` . -/
def typeOf : JSVal → JSType
  | .undefined => .undefined
  | .null => .object
  | .bool _ => .boolean
  | .num _ => .number
  | .nonIntNum => .number
  | .str _ => .string
  | .object => .object

/-- Truthiness: `!v` is `false` exactly when this is `true`.  `NaN` is falsy, and the other
non-integral numbers are truthy; the source applies `!` to a number only in front of a
`typeof v !== 'string'` test, which holds for every number, so `nonIntNum` is taken falsy. -/
def truthy : JSVal → Bool
  | .undefined => false
  | .null => false
  | .bool b => b
  | .num n => n != 0
  | .nonIntNum => false
  | .str s => s != ""
  | .object => true

/-- The value of `Number.isInteger v` . -/
def isInteger : JSVal → Bool
  | .num _ => true
  | _ => false

/-- The characters of a string value (used only behind a `typeof v === 'string'` test). -/
def text : JSVal → String
  | .str s => s
  | _ => ""

/-- The integer of an integral number (used only behind a `Number.isInteger` test). -/
def int : JSVal → Int
  | .num n => n
  | _ => 0

end JSVal

/-- The code points removed by `String.prototype.trim`: ECMAScript WhiteSpace and
LineTerminator. -/
def isJSWhitespace (c : Char) : Bool :=
  let n := c.toNat
  n == 0x09 || n == 0x0A || n == 0x0B || n == 0x0C || n == 0x0D || n == 0x20 || n == 0xA0 ||
  n == 0x1680 || (0x2000 ≤ n && n ≤ 0x200A) || n == 0x2028 || n == 0x2029 || n == 0x202F ||
  n == 0x205F || n == 0x3000 || n == 0xFEFF

/-- The method `String.prototype.trim` on a list of characters. -/
def trimChars (cs : List Char) : List Char :=
  ((cs.dropWhile isJSWhitespace).reverse.dropWhile isJSWhitespace).reverse

/-- The method `String.prototype.trim` . -/
def jsTrim (s : String) : String := ⟨trimChars s.data⟩

/-- What `new Date()` yields at the moment of a call: `getFullYear()` and the date part of
`toISOString()` . -/
structure Clock where
  fullYear : Int
  isoDate : String
  deriving DecidableEq, Repr

/-! ## Books, errors and the catalog state -/

/-- A book object.  `readDate = none` is the absent property. -/
structure Book where
  id : Nat
  title : String
  author : String
  year : Int
  isRead : Bool
  addedDate : String
  readDate : Option String
  deriving DecidableEq, Repr

/-- The message thrown by `addBook` for a bad title. -/
def titleRequiredMessage : String :=
  "Название книги обязательно и должно быть непустой строкой"

/-- The message thrown by `addBook` for a bad author. -/
def authorRequiredMessage : String :=
  "Автор книги обязателен и должен быть непустой строкой"

/-- The message thrown by `addBook` and by `updateBook` for a bad year. -/
def yearMessage : String :=
  "Год издания должен быть положительным целым числом не больше текущего года"

/-- The message thrown by `updateBook` for a bad title. -/
def titleUpdateMessage : String :=
  "Название книги должно быть непустой строкой"

/-- The message thrown by `updateBook` for a bad author. -/
def authorUpdateMessage : String :=
  "Автор книги должен быть непустой строкой"

/-- The errors thrown by the class.  A fixed message is carried as its text; a template
literal is carried as the value it interpolates. -/
inductive LibError
  /-- One of the fixed validation messages. -/
  | validation (message : String)
  /-- The template literal of the not-found message, which interpolates `bookId` . -/
  | notFound (bookId : JSVal)
  /-- The template literal of the already-read message, which interpolates `book.title` . -/
  | alreadyRead (title : String)
  /-- The template literal of the invalid-fields message, which interpolates the joined
  `invalidFields` . -/
  | invalidFields (fields : List String)
  deriving DecidableEq, Repr

end BookLibrary

/-- The instance state of the class: `this.books` and `this.nextId` . -/
structure BookLibrary where
  books : List BookLibrary.Book
  nextId : Nat
  deriving DecidableEq, Repr

namespace BookLibrary

/-- The constructor. -/
def new : BookLibrary := { books := [], nextId := 1 }

/-- The comparison `book.id === bookId` for a stored (integral) id. -/
def strictEq (id : Nat) : JSVal → Bool
  | .num n => n == (id : Int)
  | _ => false

/-- The test `!v || typeof v !== 'string' || v.trim() === ''` . -/
def invalidText (v : JSVal) : Bool :=
  !v.truthy || v.typeOf != .string || jsTrim v.text == ""

/-- The test
`typeof v !== 'number' || !Number.isInteger(v) || v < 0 || v > new Date().getFullYear()` . -/
def invalidYear (now : Clock) (v : JSVal) : Bool :=
  v.typeOf != .number || !v.isInteger || decide (v.int < 0) || decide (v.int > now.fullYear)

/-- The stored object found by `this.books.find(book => book.id === bookId)` . -/
def findBook (lib : BookLibrary) (bookId : JSVal) : Option Book :=
  lib.books.find? (fun book => strictEq book.id bookId)

/-- Replace the first element satisfying `p` . -/
def replaceFirst (p : Book → Bool) (b' : Book) : List Book → List Book
  | [] => []
  | b :: bs => if p b then b' :: bs else b :: replaceFirst p b' bs

/-- The effect of assigning to properties of the object returned by `find`: the first stored
book whose id is `bookId` now has the contents `book'` . -/
def assign (lib : BookLibrary) (bookId : JSVal) (book' : Book) : BookLibrary :=
  { lib with books := replaceFirst (fun b => strictEq b.id bookId) book' lib.books }

/-! ## Methods -/

/-- The method `addBook(title, author, year)` . -/
def addBook (lib : BookLibrary) (now : Clock) (title author year : JSVal) :
    BookLibrary × Except LibError Book :=
  if invalidText title then (lib, .error (.validation titleRequiredMessage))
  else if invalidText author then (lib, .error (.validation authorRequiredMessage))
  else if invalidYear now year then (lib, .error (.validation yearMessage))
  else
    let book : Book :=
      { id := lib.nextId
        title := jsTrim title.text
        author := jsTrim author.text
        year := year.int
        isRead := false
        addedDate := now.isoDate
        readDate := none }
    ({ books := lib.books ++ [book], nextId := lib.nextId + 1 }, .ok book)

/-- The method `removeBook(bookId)` .  The filtered array is assigned before the length test. -/
def removeBook (lib : BookLibrary) (bookId : JSVal) : BookLibrary × Except LibError Unit :=
  let initialLength := lib.books.length
  let lib' : BookLibrary :=
    { lib with books := lib.books.filter (fun book => !strictEq book.id bookId) }
  if lib'.books.length = initialLength then (lib', .error (.notFound bookId))
  else (lib', .ok ())

/-- The method `markAsRead(bookId)` . -/
def markAsRead (lib : BookLibrary) (now : Clock) (bookId : JSVal) :
    BookLibrary × Except LibError Book :=
  match lib.findBook bookId with
  | none => (lib, .error (.notFound bookId))
  | some book =>
    if book.isRead then (lib, .error (.alreadyRead book.title))
    else
      let book' : Book := { book with isRead := true, readDate := some now.isoDate }
      (lib.assign bookId book', .ok book')

/-- The method `markAsUnread(bookId)` . -/
def markAsUnread (lib : BookLibrary) (bookId : JSVal) : BookLibrary × Except LibError Book :=
  match lib.findBook bookId with
  | none => (lib, .error (.notFound bookId))
  | some book =>
    let book' : Book := { book with isRead := false, readDate := none }
    (lib.assign bookId book', .ok book')

/-- The array `allowedUpdates` of `updateBook` . -/
def allowedUpdates : List String := ["title", "author", "year"]

/-- The object passed as `updates`, as far as the method looks at it.  `own` holds the own
enumerable string-keyed properties in the order of `Object.keys`; `other` holds the properties
that a read finds but `Object.keys` does not list: own non-enumerable properties and those
inherited through the prototype chain, in the order a read finds them.  Properties are data
properties: an accessor or a proxy, whose reads may run code or differ from read to read, is
outside the model. -/
structure JSObject where
  own : List (String × JSVal)
  other : List (String × JSVal)
  deriving DecidableEq, Repr

/-- An object literal: own enumerable properties only, and nothing inherited under the names
the method reads. -/
def JSObject.plain (own : List (String × JSVal)) : JSObject := { own := own, other := [] }

/-- The property read `updates.key` : the own property if there is one, else the one found
further along (non-enumerable or inherited), else `undefined` . -/
def getProp (updates : JSObject) (key : String) : JSVal :=
  ((updates.own.lookup key).orElse (fun _ => updates.other.lookup key)).getD .undefined

/-- The method `updateBook(bookId, updates)` .  The unknown-key check runs over
`Object.keys(updates)`, the own enumerable keys; the fields are read with `updates.title`,
`updates.author`, `updates.year`, which also find non-enumerable and inherited properties.
Each field is checked and assigned in turn, so a throw at a later field happens after the
earlier assignments to the stored object. -/
def updateBook (lib : BookLibrary) (now : Clock) (bookId : JSVal)
    (updates : JSObject) : BookLibrary × Except LibError Book :=
  match lib.findBook bookId with
  | none => (lib, .error (.notFound bookId))
  | some book =>
    let updateKeys := updates.own.map Prod.fst
    let invalidFields := updateKeys.filter (fun key => !allowedUpdates.contains key)
    if invalidFields.length > 0 then (lib, .error (.invalidFields invalidFields))
    else
      let title := getProp updates "title"
      if title ≠ .undefined ∧ invalidText title then
        (lib, .error (.validation titleUpdateMessage))
      else
        let book1 : Book :=
          if title ≠ .undefined then { book with title := jsTrim title.text } else book
        let author := getProp updates "author"
        if author ≠ .undefined ∧ invalidText author then
          (lib.assign bookId book1, .error (.validation authorUpdateMessage))
        else
          let book2 : Book :=
            if author ≠ .undefined then { book1 with author := jsTrim author.text } else book1
          let year := getProp updates "year"
          if year ≠ .undefined ∧ invalidYear now year then
            (lib.assign bookId book2, .error (.validation yearMessage))
          else
            let book3 : Book :=
              if year ≠ .undefined then { book2 with year := year.int } else book2
            (lib.assign bookId book3, .ok book3)

/-- The method `getBooks()` . -/
def getBooks (lib : BookLibrary) : List Book := lib.books

/-- The method `getBookById(bookId)` . -/
def getBookById (lib : BookLibrary) (bookId : JSVal) : Except LibError Book :=
  match lib.findBook bookId with
  | none => .error (.notFound bookId)
  | some book => .ok book

/-- The method `clearLibrary()` . -/
def clearLibrary (_lib : BookLibrary) : BookLibrary := { books := [], nextId := 1 }

/-- The method `getBooksCount()` . -/
def getBooksCount (lib : BookLibrary) : Nat := lib.books.length

/-! ## The sorting accessors and the objects they hand out -/

/-- A reference to a stored book object: its position in `this.books` at the time it was
handed out.  The sorting accessors copy the array (`[...this.books]`) but not its elements. -/
structure StoredRef where
  index : Nat
  deriving DecidableEq, Repr

/-- The stored books paired with their positions, sorted by `(a, b) => a.year - b.year` .
`Array.prototype.sort` is stable; insertion from the right before the first element that is
not smaller is the stable order. -/
def sortedByYear (lib : BookLibrary) : List (Nat × Book) :=
  lib.books.enum.insertionSort (fun a b => a.2.year ≤ b.2.year)

/-- The method `getBooksSortedByYear(order = 'asc')`: the elements are the stored objects. -/
def getBooksSortedByYear (lib : BookLibrary) (order : JSVal) : List StoredRef :=
  let order := if order = .undefined then JSVal.str "asc" else order
  let sortedBooks := lib.sortedByYear
  (if order = .str "desc" then sortedBooks.reverse else sortedBooks).map
    (fun p => StoredRef.mk p.1)

/-- The method `getBooksSortedByAuthor()`, for a given result of `localeCompare` (the
collation of the host is external to the class): the elements are the stored objects. -/
def getBooksSortedByAuthor (localeCompare : String → String → Int) (lib : BookLibrary) :
    List StoredRef :=
  (lib.books.enum.insertionSort
    (fun a b => localeCompare a.2.author b.2.author ≤ 0)).map (fun p => StoredRef.mk p.1)

/-- Reading the object behind a reference. -/
def deref (lib : BookLibrary) (r : StoredRef) : Option Book := lib.books.get? r.index

/-- Replace the element at a position. -/
def modifyAt (f : Book → Book) : Nat → List Book → List Book
  | _, [] => []
  | 0, b :: bs => f b :: bs
  | n + 1, b :: bs => b :: modifyAt f n bs

/-- The caller changes properties of an object it received by reference: the stored object
changes. -/
def writeThrough (lib : BookLibrary) (r : StoredRef) (f : Book → Book) : BookLibrary :=
  { lib with books := modifyAt f r.index lib.books }

/-! ## Sequences of calls -/

/-- A call of one of the state-changing methods, with the clock reading at the call where the
method reads the clock. -/
inductive Call
  | addBook (now : Clock) (title author year : JSVal)
  | removeBook (bookId : JSVal)
  | markAsRead (now : Clock) (bookId : JSVal)
  | markAsUnread (bookId : JSVal)
  | updateBook (now : Clock) (bookId : JSVal) (updates : JSObject)
  | clearLibrary
  deriving DecidableEq, Repr

/-- The state after a call, and the returned book or the thrown error (`none` for the
methods that return nothing). -/
def exec (lib : BookLibrary) : Call → BookLibrary × Except LibError (Option Book)
  | .addBook now title author year =>
    let r := lib.addBook now title author year
    (r.1, r.2.map some)
  | .removeBook bookId =>
    let r := lib.removeBook bookId
    (r.1, r.2.map (fun _ => none))
  | .markAsRead now bookId =>
    let r := lib.markAsRead now bookId
    (r.1, r.2.map some)
  | .markAsUnread bookId =>
    let r := lib.markAsUnread bookId
    (r.1, r.2.map some)
  | .updateBook now bookId updates =>
    let r := lib.updateBook now bookId updates
    (r.1, r.2.map some)
  | .clearLibrary => (lib.clearLibrary, .ok none)

/-- The state after a sequence of calls, each run on the state the previous one left,
whether it returned or threw. -/
def run (lib : BookLibrary) : List Call → BookLibrary
  | [] => lib
  | c :: cs => run (lib.exec c).1 cs

/-- The ids of the books returned by the successful `addBook` calls of a sequence, in call
order. -/
def issuedIds (lib : BookLibrary) : List Call → List Nat
  | [] => []
  | .addBook now title author year :: cs =>
    let r := lib.addBook now title author year
    match r.2 with
    | .ok book => book.id :: issuedIds r.1 cs
    | .error _ => issuedIds r.1 cs
  | c :: cs => issuedIds (lib.exec c).1 cs

/-- The states a catalog can be in: those produced from a new catalog by calls of its
methods, successful or failing. -/
inductive Reachable : BookLibrary → Prop
  | new : Reachable BookLibrary.new
  | exec (lib : BookLibrary) (c : Call) : Reachable lib → Reachable (lib.exec c).1

/-- How one call changes the state.  Either nothing changes; or a book with the id `nextId`,
unread and without `readDate`, is appended and `nextId` grows by one; or some books are
filtered out; or the first book with some id gets new contents with the same id and
`addedDate`, whose read status is either kept, or set with a date, or cleared; or the
catalog is reset. -/
inductive Step (lib : BookLibrary) : BookLibrary → Prop
  | same : Step lib lib
  | added (book : Book) (hid : book.id = lib.nextId) (hread : book.isRead = false)
      (hdate : book.readDate = none) :
      Step lib { books := lib.books ++ [book], nextId := lib.nextId + 1 }
  | removed (bookId : JSVal) :
      Step lib { lib with books := lib.books.filter (fun b => !strictEq b.id bookId) }
  | assigned (bookId : JSVal) (book book' : Book) (hfind : lib.findBook bookId = some book)
      (hid : book'.id = book.id) (hadded : book'.addedDate = book.addedDate)
      (hread : (book'.isRead = book.isRead ∧ book'.readDate = book.readDate) ∨
        (book'.isRead = true ∧ ∃ d, book'.readDate = some d) ∨
        (book'.isRead = false ∧ book'.readDate = none)) :
      Step lib (lib.assign bookId book')
  | cleared : Step lib BookLibrary.new

/-- The stored ids are below the counter and pairwise distinct. -/
def IdsFresh (lib : BookLibrary) : Prop :=
  (∀ i ∈ lib.books.map Book.id, i < lib.nextId) ∧ (lib.books.map Book.id).Nodup

/-! ## Predicates of the specification and sample data -/

/-- A value that is a string and is non-empty after trimming. -/
def NonBlankString : JSVal → Prop
  | .str s => jsTrim s ≠ ""
  | _ => False

instance : DecidablePred NonBlankString := fun v => by
  cases v <;> unfold NonBlankString <;> infer_instance

/-- A value that is an integer between zero and the current year. -/
def YearInRange (now : Clock) : JSVal → Prop
  | .num n => 0 ≤ n ∧ n ≤ now.fullYear
  | _ => False

instance (now : Clock) : DecidablePred (YearInRange now) := fun v => by
  cases v <;> unfold YearInRange <;> infer_instance

/-- A call that threw. -/
def Failed {α : Type} (r : BookLibrary × Except LibError α) : Prop :=
  ∃ e, r.2 = .error e

/-- A clock reading used in the examples. -/
def sampleClock : Clock := { fullYear := 2025, isoDate := "2025-06-01" }

/-- A catalog holding the single book of the copy test of the test suite. -/
def oneBook : BookLibrary :=
  (BookLibrary.new.addBook sampleClock (.str "Книга") (.str "Автор") (.num 2000)).1

/-- The record stored in `oneBook` . -/
def theBook : Book :=
  { id := 1, title := "Книга", author := "Автор", year := 2000, isRead := false,
    addedDate := "2025-06-01", readDate := none }

/-- The catalog `oneBook` after `markAsRead(1)` . -/
def oneBookRead : BookLibrary := (oneBook.exec (.markAsRead sampleClock (.num 1))).1

/-! ## Searching -/

/-- The method `String.prototype.includes`: the argument occurs in the string as a contiguous
run of characters. -/
def jsIncludes (s sub : String) : Bool := decide (sub.data <:+: s.data)

/-- The method `findBooksByAuthor(author)`, for a given `String.prototype.toLowerCase` (the
case mapping of the host is external to the class).  The emptiness test `!author` is applied
to the query as given, the search term is lower-cased and then trimmed. -/
def findBooksByAuthor (toLowerCase : String → String) (lib : BookLibrary) (author : JSVal) :
    List Book :=
  if !author.truthy || author.typeOf != .string then []
  else
    let searchTerm := jsTrim (toLowerCase author.text)
    lib.books.filter (fun book => jsIncludes (toLowerCase book.author) searchTerm)

/-- The method `findBooksByTitle(title)`, for a given `String.prototype.toLowerCase` . -/
def findBooksByTitle (toLowerCase : String → String) (lib : BookLibrary) (title : JSVal) :
    List Book :=
  if !title.truthy || title.typeOf != .string then []
  else
    let searchTerm := jsTrim (toLowerCase title.text)
    lib.books.filter (fun book => jsIncludes (toLowerCase book.title) searchTerm)

/-! ## Double-precision arithmetic

`getStatistics` divides and multiplies numbers; these are IEEE 754 binary64 operations, each
rounding its exact result to the nearest double, ties to the even mantissa.  The operands
here are counts of books and the constant 100, so all values are non-negative and far from
the subnormal and overflow ranges. -/

/-- A non-negative finite double, the value `mant * 2 ^ exp` . -/
structure Dbl where
  mant : Nat
  exp : Int
  deriving DecidableEq, Repr

/-- The fraction `n / d` divided by `2 ^ e`, as a numerator and a denominator. -/
def scaleBy (n d : Nat) (e : Int) : Nat × Nat :=
  if 0 ≤ e then (n, d * 2 ^ e.toNat) else (n * 2 ^ (-e).toNat, d)

/-- The integer nearest to the fraction `n / d`, the even one of two equally near. -/
def roundHalfEven (n d : Nat) : Nat :=
  let q := n / d
  let r := n % d
  if 2 * r < d then q else if d < 2 * r then q + 1 else if q % 2 = 0 then q else q + 1

/-- The position of the highest set bit of `n`, by repeated halving (at most `fuel` times). -/
def floorLog2Aux : Nat → Nat → Nat
  | 0, _ => 0
  | fuel + 1, n => if 2 ≤ n then floorLog2Aux fuel (n / 2) + 1 else 0

/-- The position of the highest set bit of `n` . -/
def floorLog2 (n : Nat) : Nat := floorLog2Aux n n

/-- The double nearest to the fraction `n / d` (with `0 < d`): the exponent is chosen so that
the scaled fraction has a 53-bit integer part, which is then rounded. -/
def toDouble (n d : Nat) : Dbl :=
  if n = 0 then { mant := 0, exp := 0 }
  else
    let e0 : Int := (floorLog2 n : Int) - (floorLog2 d : Int) - 52
    let q0 := (scaleBy n d e0).1 / (scaleBy n d e0).2
    let e : Int := if q0 < 2 ^ 52 then e0 - 1 else e0
    { mant := roundHalfEven (scaleBy n d e).1 (scaleBy n d e).2, exp := e }

namespace Dbl

/-- The exact value of a double as a numerator and a denominator. -/
def frac (x : Dbl) : Nat × Nat := scaleBy x.mant 1 (-x.exp)

/-- The product `x * k` of a double and an integer constant, rounded to a double. -/
def mulNat (x : Dbl) (k : Nat) : Dbl := toDouble (k * x.frac.1) x.frac.2

/-- The function `Math.round`: the integer nearest to `x`, the larger one of two equally
near, which is the floor of `x + 1/2` . -/
def round (x : Dbl) : Nat := (2 * x.frac.1 + x.frac.2) / (2 * x.frac.2)

end Dbl

/-- The expression `total > 0 ? Math.round((read / total) * 100) : 0` . -/
def percentageOf (read total : Nat) : Nat :=
  if total > 0 then ((toDouble read total).mulNat 100).round else 0

/-! ## Statistics -/

/-- The value `{ count, read }` kept per author. -/
structure AuthorStats where
  count : Nat
  read : Nat
  deriving DecidableEq, Repr

/-- The names that a plain object inherits from `Object.prototype`; each names a function or
an object, so reading one of them from `authorsStats` yields a truthy value that is not an
own property. -/
def objectPrototypeKeys : List String :=
  ["constructor", "__defineGetter__", "__defineSetter__", "hasOwnProperty",
   "__lookupGetter__", "__lookupSetter__", "isPrototypeOf", "propertyIsEnumerable",
   "toString", "valueOf", "__proto__", "toLocaleString"]

/-- The test `authorsStats[key]` is truthy: an own property (always an object here) or an
inherited one. -/
def hasProperty (authorsStats : List (String × AuthorStats)) (key : String) : Bool :=
  authorsStats.any (fun e => e.1 == key) || objectPrototypeKeys.contains key

/-- The body of the `forEach` in `getStatistics`, on the own properties of `authorsStats` in
insertion order.  When the read `authorsStats[book.author]` finds an inherited value, no own
property is created and the increments go to the inherited object. -/
def tally (authorsStats : List (String × AuthorStats)) (book : Book) :
    List (String × AuthorStats) :=
  let stats1 :=
    if !hasProperty authorsStats book.author then
      authorsStats ++ [(book.author, { count := 0, read := 0 })]
    else authorsStats
  let stats2 := stats1.map
    (fun e => if e.1 == book.author then (e.1, { e.2 with count := e.2.count + 1 }) else e)
  if book.isRead then
    stats2.map
      (fun e => if e.1 == book.author then (e.1, { e.2 with read := e.2.read + 1 }) else e)
  else stats2

/-- The array index denoted by a property key: the key is the canonical decimal form of an
integer below `2 ^ 32 - 1` . -/
def arrayIndex (key : String) : Option Nat :=
  if key.data ≠ [] ∧ key.data.all Char.isDigit = true ∧
      (key.data.length = 1 ∨ key.data.head? ≠ some '0') then
    let n := key.data.foldl (fun acc c => 10 * acc + (c.toNat - 48)) 0
    if n < 2 ^ 32 - 1 then some n else none
  else none

/-- The order of `Object.entries` and `Object.keys` on a plain object: the array-index keys in
ascending numeric order, then the other keys in insertion order. -/
def ownEntries (authorsStats : List (String × AuthorStats)) : List (String × AuthorStats) :=
  (authorsStats.filter (fun e => (arrayIndex e.1).isSome)).insertionSort
      (fun a b => (arrayIndex a.1).getD 0 ≤ (arrayIndex b.1).getD 0) ++
    authorsStats.filter (fun e => !(arrayIndex e.1).isSome)

/-- The placeholder of `popularAuthor` . -/
def noDataText : String := "Нет данных"

/-- The value of `booksPerAuthor`: the number `0`, or the string
`(total / authors).toFixed(1)`, kept as its two operands. -/
inductive BooksPerAuthor
  | zero
  | toFixed1 (total authors : Nat)
  deriving DecidableEq, Repr

/-- The object returned by `getStatistics` . -/
structure Statistics where
  total : Nat
  read : Nat
  unread : Int
  percentage : Nat
  authorsCount : Nat
  popularAuthor : String
  booksPerAuthor : BooksPerAuthor
  deriving DecidableEq, Repr

/-- The method `getStatistics()` . -/
def getStatistics (lib : BookLibrary) : Statistics :=
  let total := lib.books.length
  let read := (lib.books.filter (fun book => book.isRead)).length
  let unread : Int := (total : Int) - (read : Int)
  let percentage := percentageOf read total
  let authorsStats := lib.books.foldl tally []
  let popularAuthor := (ownEntries authorsStats).foldl
    (fun max e => if e.2.count > max.2 then (e.1, e.2.count) else max) ("", 0)
  { total := total
    read := read
    unread := unread
    percentage := percentage
    authorsCount := (ownEntries authorsStats).length
    popularAuthor := if popularAuthor.1 ≠ "" then popularAuthor.1 else noDataText
    booksPerAuthor :=
      if total > 0 then .toFixed1 total (ownEntries authorsStats).length else .zero }

/-! ## Further predicates of the specification and sample data -/

/-- The call is made in the year `y`, where the method reads the clock. -/
def Call.inYear (y : Int) : Call → Prop
  | .addBook now _ _ _ => now.fullYear = y
  | .markAsRead now _ => now.fullYear = y
  | .updateBook now _ _ => now.fullYear = y
  | _ => True

/-- The states a catalog can be in when the current year is `y`: those produced from a new
catalog by calls, successful or failing, each made in the year current at its time, while
the current year never decreases. -/
inductive ReachableInYear : Int → BookLibrary → Prop
  | new (y : Int) : ReachableInYear y BookLibrary.new
  | later (y y' : Int) (lib : BookLibrary) :
      ReachableInYear y lib → y ≤ y' → ReachableInYear y' lib
  | exec (y : Int) (lib : BookLibrary) (c : Call) :
      ReachableInYear y lib → c.inYear y → ReachableInYear y (lib.exec c).1

/-- A title and an author that are non-empty and equal to their trimmed form, and a year
between zero and the current year `y` . -/
def ValidBook (y : Int) (b : Book) : Prop :=
  b.title ≠ "" ∧ jsTrim b.title = b.title ∧ b.author ≠ "" ∧ jsTrim b.author = b.author ∧
    0 ≤ b.year ∧ b.year ≤ y

/-- The integer nearest to `n / d`, halves rounded up. -/
def roundHalfUp (n d : Nat) : Nat := (2 * n + d) / (2 * d)

/-- The number of stored books with exactly this author string. -/
def countByAuthor (lib : BookLibrary) (author : String) : Nat :=
  (lib.books.filter (fun b => b.author == author)).length

/-- The order of a stable ascending sort by year on books paired with their catalog
positions: smaller year first, and for equal years smaller position first. -/
def YearThenPosition (a b : Nat × Book) : Prop :=
  a.2.year < b.2.year ∨ (a.2.year = b.2.year ∧ a.1 < b.1)

/-- What `markAsRead(bookId)` and `markAsUnread(bookId)` may change in a stored book: nothing
in a book with a different id, and neither id, `addedDate`, title, author nor year in any. -/
def MarkFrame (bookId : JSVal) (b b' : Book) : Prop :=
  b'.id = b.id ∧ b'.addedDate = b.addedDate ∧ b'.title = b.title ∧ b'.author = b.author ∧
    b'.year = b.year ∧ (bookId ≠ .num b.id → b' = b)

/-- What `updateBook(bookId, updates)` may change in a stored book: nothing in a book with a
different id; neither id, `addedDate`, `isRead` nor `readDate` in any; and a title, author
or year only to the (trimmed) value that the update set holds for that key, which is the
value the read `updates.title`, `updates.author` or `updates.year` yields, from an own or an
inherited property. -/
def UpdateFrame (bookId : JSVal) (updates : JSObject) (b b' : Book) : Prop :=
  b'.id = b.id ∧ b'.addedDate = b.addedDate ∧ b'.isRead = b.isRead ∧
    b'.readDate = b.readDate ∧ (bookId ≠ .num b.id → b' = b) ∧
    (b'.title = b.title ∨
      ∃ t, getProp updates "title" = .str t ∧ b'.title = jsTrim t) ∧
    (b'.author = b.author ∨
      ∃ a, getProp updates "author" = .str a ∧ b'.author = jsTrim a) ∧
    (b'.year = b.year ∨ ∃ n, getProp updates "year" = .num n ∧ b'.year = n)

/-- A catalog of forty books of which the first twenty-three have been marked as read. -/
def fortyBooks : BookLibrary :=
  BookLibrary.new.run
    ((List.range 40).map
        (fun _ => Call.addBook sampleClock (.str "Книга") (.str "Автор") (.num 2000)) ++
      (List.range 23).map (fun i => Call.markAsRead sampleClock (.num (i + 1))))

/-- A catalog of two books whose authors are "Б" and then "1" . -/
def twoAuthors : BookLibrary :=
  BookLibrary.new.run
    [.addBook sampleClock (.str "Книга 1") (.str "Б") (.num 2000),
     .addBook sampleClock (.str "Книга 2") (.str "1") (.num 2001)]

/-- A catalog of one book whose author is "constructor" . -/
def constructorAuthor : BookLibrary :=
  BookLibrary.new.run [.addBook sampleClock (.str "Книга") (.str "constructor") (.num 2000)]

/-- How `updateBook(bookId, updates)` called in the year of `now` relates the contents of the
found book before and after: id, `addedDate`, `isRead` and `readDate` are kept, and a title,
author or year is either kept or is the value read for its key (from an own or an inherited
property), which then passed the check of that field. -/
def UpdatedFrom (now : Clock) (updates : JSObject) (b b' : Book) : Prop :=
  b'.id = b.id ∧ b'.addedDate = b.addedDate ∧ b'.isRead = b.isRead ∧
    b'.readDate = b.readDate ∧
    (b'.title = b.title ∨
      ∃ t, getProp updates "title" = .str t ∧ jsTrim t ≠ "" ∧ b'.title = jsTrim t) ∧
    (b'.author = b.author ∨
      ∃ a, getProp updates "author" = .str a ∧ jsTrim a ≠ "" ∧ b'.author = jsTrim a) ∧
    (b'.year = b.year ∨
      ∃ n, getProp updates "year" = .num n ∧ 0 ≤ n ∧ n ≤ now.fullYear ∧ b'.year = n)

/-- A catalog of four books with the years 2020, 2000, 2020, 2000, in this order. -/
def fourBooks : BookLibrary :=
  BookLibrary.new.run
    [.addBook sampleClock (.str "Книга 1") (.str "Автор") (.num 2020),
     .addBook sampleClock (.str "Книга 2") (.str "Автор") (.num 2000),
     .addBook sampleClock (.str "Книга 3") (.str "Автор") (.num 2020),
     .addBook sampleClock (.str "Книга 4") (.str "Автор") (.num 2000)]

/-- The argument `Object.create(proto)` for a `proto` whose title is `v`: no own key, and a
title found on the prototype. -/
def inheritedTitle (v : JSVal) : JSObject := { own := [], other := [("title", v)] }

end BookLibrary

deriving instance DecidableEq for Except

namespace BookLibrary

/-! ## Basic facts -/

theorem strictEq_iff (id : Nat) (v : JSVal) : strictEq id v = true ↔ v = .num id := by
  cases v <;> simp [strictEq]

theorem jsTrim_empty : jsTrim "" = "" := by decide

theorem invalidText_eq_false_iff (v : JSVal) : invalidText v = false ↔ NonBlankString v := by
  cases v <;> simp [invalidText, NonBlankString, JSVal.truthy, JSVal.typeOf, JSVal.text]
  rename_i s
  intro h hs
  subst hs
  exact h jsTrim_empty

theorem invalidYear_eq_false_iff (now : Clock) (v : JSVal) :
    invalidYear now v = false ↔ YearInRange now v := by
  cases v <;> simp [invalidYear, YearInRange, JSVal.typeOf, JSVal.isInteger, JSVal.int]

theorem invalidText_eq_true_iff (v : JSVal) : invalidText v = true ↔ ¬ NonBlankString v := by
  rw [← invalidText_eq_false_iff]; simp

theorem invalidYear_eq_true_iff (now : Clock) (v : JSVal) :
    invalidYear now v = true ↔ ¬ YearInRange now v := by
  rw [← invalidYear_eq_false_iff]; simp

end BookLibrary

namespace BookLibrary

/-! ## Claims about `addBook` -/

/-- C3: `addBook` throws exactly when the title is not a non-blank string, or the author is
not a non-blank string, or the year is not an integer between zero and the current year; the
message is the title message for a bad title, else the author message for a bad author, else
the year message; the three messages differ; and a failing call leaves `books` and `nextId`
as they were. -/
theorem addBook_fails_iff (lib : BookLibrary) (now : Clock) (title author year : JSVal) :
    (Failed (lib.addBook now title author year) ↔
      (¬ NonBlankString title ∨ ¬ NonBlankString author ∨ ¬ YearInRange now year)) ∧
    (¬ NonBlankString title →
      (lib.addBook now title author year).2 = .error (.validation titleRequiredMessage)) ∧
    (NonBlankString title → ¬ NonBlankString author →
      (lib.addBook now title author year).2 = .error (.validation authorRequiredMessage)) ∧
    (NonBlankString title → NonBlankString author → ¬ YearInRange now year →
      (lib.addBook now title author year).2 = .error (.validation yearMessage)) ∧
    (titleRequiredMessage ≠ authorRequiredMessage ∧ titleRequiredMessage ≠ yearMessage ∧
      authorRequiredMessage ≠ yearMessage) ∧
    (Failed (lib.addBook now title author year) →
      (lib.addBook now title author year).1 = lib) := by
  have ht := invalidText_eq_true_iff title
  have ha := invalidText_eq_true_iff author
  have hy := invalidYear_eq_true_iff now year
  refine ⟨?_, ?_, ?_, ?_, by decide, ?_⟩
  · unfold Failed addBook
    by_cases h1 : invalidText title
    · simp [h1, ht.mp h1]
    · by_cases h2 : invalidText author
      · simp [h1, h2, ha.mp h2]
      · by_cases h3 : invalidYear now year
        · simp [h1, h2, h3, hy.mp h3]
        · have k1 : NonBlankString title := by_contra fun k => h1 (ht.mpr k)
          have k2 : NonBlankString author := by_contra fun k => h2 (ha.mpr k)
          have k3 : YearInRange now year := by_contra fun k => h3 (hy.mpr k)
          simp [h1, h2, h3, k1, k2, k3]
  · intro k
    simp [addBook, ht.mpr k]
  · intro k1 k2
    have h1 : ¬ invalidText title = true := fun h => ht.mp h k1
    simp [addBook, h1, ha.mpr k2]
  · intro k1 k2 k3
    have h1 : ¬ invalidText title = true := fun h => ht.mp h k1
    have h2 : ¬ invalidText author = true := fun h => ha.mp h k2
    simp [addBook, h1, h2, hy.mpr k3]
  · unfold Failed addBook
    by_cases h1 : invalidText title
    · simp [h1]
    · by_cases h2 : invalidText author
      · simp [h1, h2]
      · by_cases h3 : invalidYear now year
        · simp [h1, h2, h3]
        · simp [h1, h2, h3]

/-- C3, at a whitespace-only title: the call throws the title message and the catalog is
unchanged. -/
theorem addBook_fails_iff_witness :
    (oneBook.addBook sampleClock (.str "   ") (.str "Автор") (.num 2020)).2 =
        .error (.validation titleRequiredMessage) ∧
      (oneBook.addBook sampleClock (.str "   ") (.str "Автор") (.num 2020)).1 = oneBook :=
  have h := addBook_fails_iff oneBook sampleClock (.str "   ") (.str "Автор") (.num 2020)
  ⟨h.2.1 (by decide), h.2.2.2.2.2 ((h.1).mpr (Or.inl (by decide)))⟩

/-- C4: for a title and an author that are non-blank strings and a year that is an integer
between zero and the current year, `addBook` returns the record with id the old `nextId`, the
trimmed title and author, the given year, `isRead = false`, the clock date as `addedDate` and
no `readDate`; the new list is the old list with that record appended, the count grows by
one and `nextId` grows by one. -/
theorem addBook_success (lib : BookLibrary) (now : Clock) (t a : String) (y : Int)
    (ht : jsTrim t ≠ "") (ha : jsTrim a ≠ "") (hy0 : 0 ≤ y) (hy1 : y ≤ now.fullYear) :
    ∃ book : Book,
      lib.addBook now (.str t) (.str a) (.num y) =
        ({ books := lib.books ++ [book], nextId := lib.nextId + 1 }, .ok book) ∧
      book = { id := lib.nextId, title := jsTrim t, author := jsTrim a, year := y,
               isRead := false, addedDate := now.isoDate, readDate := none } ∧
      (lib.addBook now (.str t) (.str a) (.num y)).1.getBooks = lib.getBooks ++ [book] ∧
      (lib.addBook now (.str t) (.str a) (.num y)).1.getBooksCount = lib.getBooksCount + 1 ∧
      (lib.addBook now (.str t) (.str a) (.num y)).1.nextId = lib.nextId + 1 := by
  have h1 : invalidText (.str t) = false := (invalidText_eq_false_iff _).mpr ht
  have h2 : invalidText (.str a) = false := (invalidText_eq_false_iff _).mpr ha
  have h3 : invalidYear now (.num y) = false := (invalidYear_eq_false_iff _ _).mpr ⟨hy0, hy1⟩
  refine ⟨_, ?_, rfl, ?_, ?_, ?_⟩ <;>
    simp [addBook, h1, h2, h3, JSVal.text, JSVal.int, getBooks, getBooksCount]

/-- C4, on the padded input of the test suite. -/
theorem addBook_success_witness :
    ∃ book : Book,
      oneBook.addBook sampleClock (.str "  padded  ") (.str "  name  ") (.num 2020) =
        ({ books := oneBook.books ++ [book], nextId := oneBook.nextId + 1 }, .ok book) ∧
      book = { id := oneBook.nextId, title := jsTrim "  padded  ", author := jsTrim "  name  ",
               year := 2020, isRead := false, addedDate := sampleClock.isoDate,
               readDate := none } ∧
      (oneBook.addBook sampleClock (.str "  padded  ") (.str "  name  ")
        (.num 2020)).1.getBooks = oneBook.getBooks ++ [book] ∧
      (oneBook.addBook sampleClock (.str "  padded  ") (.str "  name  ")
        (.num 2020)).1.getBooksCount = oneBook.getBooksCount + 1 ∧
      (oneBook.addBook sampleClock (.str "  padded  ") (.str "  name  ")
        (.num 2020)).1.nextId = oneBook.nextId + 1 :=
  addBook_success oneBook sampleClock "  padded  " "  name  " 2020 (by decide) (by decide)
    (by decide) (by decide)

/-! ## Claims where the code departs from the specification -/

/-- C1: `updateBook` is not atomic.  On a catalog holding one book, an update with a valid
title and an empty author throws the author message, and the stored title has already been
replaced: the state after the failing call differs from the state before it. -/
theorem updateBook_failure_keeps_title_assignment :
    (oneBook.updateBook sampleClock (.num 1)
        (.plain [("title", .str "Новое название"), ("author", .str "")])).2 =
      .error (.validation authorUpdateMessage) ∧
    oneBook.getBookById (.num 1) =
      .ok { id := 1, title := "Книга", author := "Автор", year := 2000, isRead := false,
            addedDate := "2025-06-01", readDate := none } ∧
    (oneBook.updateBook sampleClock (.num 1)
        (.plain [("title", .str "Новое название"), ("author", .str "")])).1.getBookById (.num 1) =
      .ok { id := 1, title := "Новое название", author := "Автор", year := 2000,
            isRead := false, addedDate := "2025-06-01", readDate := none } ∧
    (oneBook.updateBook sampleClock (.num 1)
        (.plain [("title", .str "Новое название"), ("author", .str "")])).1 ≠ oneBook := by
  decide

/-- C6: the sorting accessors hand out the stored objects.  On a catalog holding one book,
`getBooksSortedByYear()` and `getBooksSortedByAuthor()` return the stored object, and after
the caller assigns to its `title`, `getBookById` of the same id returns the changed title. -/
theorem sorted_accessors_return_stored_objects :
    oneBook.getBooksSortedByYear .undefined = [StoredRef.mk 0] ∧
    (∀ cmp, oneBook.getBooksSortedByAuthor cmp = [StoredRef.mk 0]) ∧
    oneBook.getBookById (.num 1) =
      .ok { id := 1, title := "Книга", author := "Автор", year := 2000, isRead := false,
            addedDate := "2025-06-01", readDate := none } ∧
    (oneBook.writeThrough (StoredRef.mk 0)
        (fun b => { b with title := "Измененное название" })).getBookById (.num 1) =
      .ok { id := 1, title := "Измененное название", author := "Автор", year := 2000,
            isRead := false, addedDate := "2025-06-01", readDate := none } := by
  refine ⟨by decide, ?_, by decide, by decide⟩
  intro cmp
  rfl

end BookLibrary

namespace BookLibrary

/-! ## The shape of the state after a call -/

theorem findBook_some {lib : BookLibrary} {bookId : JSVal} {book : Book}
    (h : lib.findBook bookId = some book) : book ∈ lib.books ∧ bookId = .num book.id := by
  unfold findBook at h
  have h2 := List.find?_some h
  exact ⟨List.mem_of_find?_eq_some h, (strictEq_iff _ _).mp h2⟩

theorem findBook_eq_none {lib : BookLibrary} {bookId : JSVal} :
    lib.findBook bookId = none ↔ ∀ b ∈ lib.books, bookId ≠ .num b.id := by
  unfold findBook
  simp [List.find?_eq_none, strictEq_iff]

theorem replaceFirst_map_id (bookId : JSVal) (book' : Book)
    (h : strictEq book'.id bookId = true) (l : List Book) :
    (replaceFirst (fun b => strictEq b.id bookId) book' l).map Book.id = l.map Book.id := by
  induction l with
  | nil => rfl
  | cons b bs ih =>
    unfold replaceFirst
    by_cases hb : strictEq b.id bookId = true
    · have e1 := (strictEq_iff _ _).mp hb
      have e2 := (strictEq_iff _ _).mp h
      have : book'.id = b.id := by
        rw [e1] at e2
        injection e2 with e3
        exact (Int.ofNat_inj.mp e3).symm
      simp [hb, this]
    · simp [hb, ih]

theorem mem_replaceFirst {p : Book → Bool} {book' x : Book} {l : List Book}
    (h : x ∈ replaceFirst p book' l) : x ∈ l ∨ x = book' := by
  induction l with
  | nil => simp [replaceFirst] at h
  | cons b bs ih =>
    unfold replaceFirst at h
    by_cases hb : p b = true
    · simp [hb] at h
      rcases h with h | h
      · exact Or.inr h
      · exact Or.inl (List.mem_cons_of_mem _ h)
    · simp [hb] at h
      rcases h with h | h
      · exact Or.inl (h ▸ List.mem_cons_self _ _)
      · rcases ih h with h | h
        · exact Or.inl (List.mem_cons_of_mem _ h)
        · exact Or.inr h

theorem addBook_step (lib : BookLibrary) (now : Clock) (title author year : JSVal) :
    Step lib (lib.addBook now title author year).1 := by
  unfold addBook
  split
  · exact .same
  · split
    · exact .same
    · split
      · exact .same
      · exact .added _ rfl rfl rfl

theorem removeBook_step (lib : BookLibrary) (bookId : JSVal) :
    Step lib (lib.removeBook bookId).1 := by
  unfold removeBook
  simp only
  split <;> exact .removed bookId

theorem markAsRead_step (lib : BookLibrary) (now : Clock) (bookId : JSVal) :
    Step lib (lib.markAsRead now bookId).1 := by
  unfold markAsRead
  split
  · exact .same
  · rename_i book hfind
    split
    · exact .same
    · exact .assigned bookId book _ hfind rfl rfl (Or.inr (Or.inl ⟨rfl, _, rfl⟩))

theorem markAsUnread_step (lib : BookLibrary) (bookId : JSVal) :
    Step lib (lib.markAsUnread bookId).1 := by
  unfold markAsUnread
  split
  · exact .same
  · rename_i book hfind
    exact .assigned bookId book _ hfind rfl rfl (Or.inr (Or.inr ⟨rfl, rfl⟩))

theorem updateBook_step (lib : BookLibrary) (now : Clock) (bookId : JSVal)
    (updates : JSObject) : Step lib (lib.updateBook now bookId updates).1 := by
  unfold updateBook
  split
  · exact .same
  · rename_i book hfind
    simp only
    split
    · exact .same
    · split
      · exact .same
      · split
        · refine .assigned bookId book _ hfind ?_ ?_ (Or.inl ⟨?_, ?_⟩) <;> split <;> rfl
        · split
          · refine .assigned bookId book _ hfind ?_ ?_ (Or.inl ⟨?_, ?_⟩) <;>
              split <;> split <;> rfl
          · refine .assigned bookId book _ hfind ?_ ?_ (Or.inl ⟨?_, ?_⟩) <;>
              split <;> split <;> split <;> rfl

theorem exec_step (lib : BookLibrary) (c : Call) : Step lib (lib.exec c).1 := by
  cases c with
  | addBook now title author year => exact addBook_step lib now title author year
  | removeBook bookId => exact removeBook_step lib bookId
  | markAsRead now bookId => exact markAsRead_step lib now bookId
  | markAsUnread bookId => exact markAsUnread_step lib bookId
  | updateBook now bookId updates => exact updateBook_step lib now bookId updates
  | clearLibrary => exact .cleared

end BookLibrary

namespace BookLibrary

/-! ## Invariants of reachable states -/

theorem step_idsFresh {lib lib' : BookLibrary} (hs : Step lib lib') (h : lib.IdsFresh) :
    lib'.IdsFresh := by
  obtain ⟨hlt, hnd⟩ := h
  cases hs with
  | same => exact ⟨hlt, hnd⟩
  | added book hid hread hdate =>
    constructor
    · intro i hi
      simp only [List.map_append, List.map_cons, List.map_nil, List.mem_append,
        List.mem_singleton] at hi
      rcases hi with hi | hi
      · exact Nat.lt_succ_of_lt (hlt i hi)
      · show i < lib.nextId + 1
        omega
    · simp only [List.map_append, List.map_cons, List.map_nil]
      refine List.Nodup.append hnd (List.nodup_singleton _) ?_
      intro i hi hi2
      rw [List.mem_singleton] at hi2
      have := hlt i hi
      omega
  | removed bookId =>
    have hsub : List.Sublist ((lib.books.filter (fun b => !strictEq b.id bookId)).map Book.id)
        (lib.books.map Book.id) := (List.filter_sublist _).map _
    exact ⟨fun i hi => hlt i (hsub.subset hi), hnd.sublist hsub⟩
  | assigned bookId book book' hfind hid hadded hread =>
    have hb : strictEq book'.id bookId = true := by
      rw [strictEq_iff, hid]
      exact (findBook_some hfind).2
    have e : (lib.assign bookId book').books.map Book.id = lib.books.map Book.id :=
      replaceFirst_map_id bookId book' hb lib.books
    exact ⟨fun i hi => hlt i (e ▸ hi), e ▸ hnd⟩
  | cleared => exact ⟨by simp [BookLibrary.new], by simp [BookLibrary.new]⟩

theorem reachable_idsFresh {lib : BookLibrary} (h : Reachable lib) : lib.IdsFresh := by
  induction h with
  | new => exact ⟨by simp [BookLibrary.new], by simp [BookLibrary.new]⟩
  | exec lib c _ ih => exact step_idsFresh (exec_step lib c) ih

theorem step_readDate {lib lib' : BookLibrary} (hs : Step lib lib')
    (h : ∀ b ∈ lib.books, (b.readDate.isSome = true ↔ b.isRead = true)) :
    ∀ b ∈ lib'.books, (b.readDate.isSome = true ↔ b.isRead = true) := by
  cases hs with
  | same => exact h
  | added book hid hread hdate =>
    intro b hb
    rcases List.mem_append.mp hb with hb | hb
    · exact h b hb
    · rw [List.mem_singleton] at hb
      subst hb
      simp [hread, hdate]
  | removed bookId => exact fun b hb => h b (List.mem_of_mem_filter hb)
  | assigned bookId book book' hfind hid hadded hread =>
    intro b hb
    rcases mem_replaceFirst hb with hb | hb
    · exact h b hb
    · subst hb
      rcases hread with ⟨h1, h2⟩ | ⟨h1, d, h2⟩ | ⟨h1, h2⟩
      · rw [h1, h2]
        exact h book (findBook_some hfind).1
      · simp [h1, h2]
      · simp [h1, h2]
  | cleared => simp [BookLibrary.new]

/-! ## Finding and replacing a stored book -/

theorem find_of_mem_nodup (bookId : JSVal) (b : Book) (hid : bookId = .num b.id) :
    ∀ l : List Book, (l.map Book.id).Nodup → b ∈ l →
      l.find? (fun x => strictEq x.id bookId) = some b := by
  intro l
  induction l with
  | nil => intro _ hb; simp at hb
  | cons x xs ih =>
    intro hnd hb
    rw [List.map_cons, List.nodup_cons] at hnd
    by_cases hx : strictEq x.id bookId = true
    · have e := (strictEq_iff _ _).mp hx
      rw [hid] at e
      injection e with e
      have e' : b.id = x.id := Int.ofNat_inj.mp e
      rcases List.mem_cons.mp hb with hb | hb
      · simp [List.find?_cons, hx, hb]
      · exact absurd (e' ▸ List.mem_map_of_mem Book.id hb) hnd.1
    · rcases List.mem_cons.mp hb with hb | hb
      · subst hb
        exact absurd ((strictEq_iff _ _).mpr hid) hx
      · simp [List.find?_cons, hx, ih hnd.2 hb]

theorem find_replaceFirst (p : Book → Bool) (book' : Book) (hp : p book' = true) :
    ∀ l : List Book, (l.find? p).isSome = true → (replaceFirst p book' l).find? p = some book' := by
  intro l
  induction l with
  | nil => intro h; simp at h
  | cons x xs ih =>
    intro h
    unfold replaceFirst
    by_cases hx : p x = true
    · simp [hx, List.find?_cons, hp]
    · simp only [List.find?_cons, hx] at h
      simp [hx, List.find?_cons, ih h]

theorem replaceFirst_idem (p : Book → Bool) (book' : Book) (hp : p book' = true) :
    ∀ l : List Book, replaceFirst p book' (replaceFirst p book' l) = replaceFirst p book' l := by
  intro l
  induction l with
  | nil => rfl
  | cons x xs ih =>
    by_cases hx : p x = true
    · simp [replaceFirst, hx, hp]
    · simp [replaceFirst, hx, ih]

theorem findBook_assign {lib : BookLibrary} {bookId : JSVal} {book book' : Book}
    (hfind : lib.findBook bookId = some book) (hid : bookId = .num book'.id) :
    (lib.assign bookId book').findBook bookId = some book' := by
  unfold findBook assign
  unfold findBook at hfind
  exact find_replaceFirst _ book' ((strictEq_iff _ _).mpr hid) lib.books (by simp [hfind])

/-! ## The counter -/

theorem removeBook_nextId (lib : BookLibrary) (bookId : JSVal) :
    (lib.removeBook bookId).1.nextId = lib.nextId := by
  unfold removeBook
  simp only
  split <;> rfl

theorem markAsRead_nextId (lib : BookLibrary) (now : Clock) (bookId : JSVal) :
    (lib.markAsRead now bookId).1.nextId = lib.nextId := by
  unfold markAsRead
  split
  · rfl
  · split <;> rfl

theorem markAsUnread_nextId (lib : BookLibrary) (bookId : JSVal) :
    (lib.markAsUnread bookId).1.nextId = lib.nextId := by
  unfold markAsUnread
  split <;> rfl

theorem updateBook_nextId (lib : BookLibrary) (now : Clock) (bookId : JSVal)
    (updates : JSObject) :
    (lib.updateBook now bookId updates).1.nextId = lib.nextId := by
  unfold updateBook
  split
  · rfl
  · simp only
    split
    · rfl
    · split
      · rfl
      · split
        · rfl
        · split <;> rfl

theorem addBook_ok {lib : BookLibrary} {now : Clock} {title author year : JSVal} {book : Book}
    (h : (lib.addBook now title author year).2 = .ok book) :
    book.id = lib.nextId ∧
      (lib.addBook now title author year).1 =
        { books := lib.books ++ [book], nextId := lib.nextId + 1 } := by
  unfold addBook at h ⊢
  split at h
  · simp at h
  · split at h
    · simp at h
    · split at h
      · simp at h
      · rename_i h1 h2 h3
        simp only [Except.ok.injEq] at h
        subst h
        simp [h1, h2, h3]

theorem addBook_error {lib : BookLibrary} {now : Clock} {title author year : JSVal}
    {e : LibError} (h : (lib.addBook now title author year).2 = .error e) :
    (lib.addBook now title author year).1 = lib := by
  unfold addBook at h ⊢
  split
  · rfl
  · split
    · rfl
    · split
      · rfl
      · rename_i h1 h2 h3
        simp [h1, h2, h3] at h

theorem issuedIds_eq_range (calls : List Call) :
    ∀ lib : BookLibrary, Call.clearLibrary ∉ calls →
      issuedIds lib calls = List.range' lib.nextId (issuedIds lib calls).length := by
  induction calls with
  | nil => intro lib _; rfl
  | cons c cs ih =>
    intro lib hc
    have hcs : Call.clearLibrary ∉ cs := fun h => hc (List.mem_cons_of_mem _ h)
    cases c with
    | addBook now title author year =>
      simp only [issuedIds]
      cases hr : (lib.addBook now title author year).2 with
      | ok book =>
        obtain ⟨hid, hst⟩ := addBook_ok hr
        have := ih (lib.addBook now title author year).1 hcs
        simp only [List.length_cons, List.range'_succ]
        rw [hst] at this ⊢
        simp only at this
        rw [hid]
        congr 1
      | error e =>
        have hst := addBook_error hr
        simp only
        rw [hst]
        exact ih lib hcs
    | removeBook bookId =>
      have := ih (lib.exec (.removeBook bookId)).1 hcs
      simp only [issuedIds]
      simpa [exec, removeBook_nextId] using this
    | markAsRead now bookId =>
      have := ih (lib.exec (.markAsRead now bookId)).1 hcs
      simp only [issuedIds]
      simpa [exec, markAsRead_nextId] using this
    | markAsUnread bookId =>
      have := ih (lib.exec (.markAsUnread bookId)).1 hcs
      simp only [issuedIds]
      simpa [exec, markAsUnread_nextId] using this
    | updateBook now bookId updates =>
      have := ih (lib.exec (.updateBook now bookId updates)).1 hcs
      simp only [issuedIds]
      simpa [exec, updateBook_nextId] using this
    | clearLibrary => exact absurd (List.mem_cons_self _ _) hc

end BookLibrary

namespace BookLibrary

/-! ## Claims about ids, removal and the read status -/

/-- C2: in a sequence of calls from a new catalog with no `clearLibrary`, the ids returned by
the successful `addBook` calls are 1, 2, 3, ... in call order (each one more than the
previous one), hence strictly increasing and pairwise distinct, whatever other calls and
failing calls lie in between. -/
theorem issuedIds_consecutive (calls : List Call) (h : Call.clearLibrary ∉ calls) :
    issuedIds BookLibrary.new calls =
        List.range' 1 (issuedIds BookLibrary.new calls).length ∧
      (issuedIds BookLibrary.new calls).Chain' (fun a b => b = a + 1) ∧
      (issuedIds BookLibrary.new calls).Pairwise (· < ·) ∧
      (issuedIds BookLibrary.new calls).Nodup := by
  have e := issuedIds_eq_range calls BookLibrary.new h
  have e1 : issuedIds BookLibrary.new calls =
      List.range' 1 (issuedIds BookLibrary.new calls).length := e
  refine ⟨e1, ?_, ?_, ?_⟩
  · rw [e1]
    cases (issuedIds BookLibrary.new calls).length with
    | zero => simp
    | succ n =>
      rw [List.range'_succ]
      exact List.chain_succ_range' 1 n 1
  · rw [e1]
    exact List.pairwise_lt_range' 1 _
  · rw [e1]
    exact List.nodup_range' 1 _

/-- C2, on a sequence with a removal and two failing calls between two additions. -/
theorem issuedIds_consecutive_witness :
    issuedIds BookLibrary.new
        [.addBook sampleClock (.str "A") (.str "B") (.num 2000), .removeBook (.num 1),
         .addBook sampleClock (.str "") (.str "B") (.num 2000), .markAsRead sampleClock (.num 7),
         .addBook sampleClock (.str "C") (.str "D") (.num 2001)] = [1, 2] := by
  have h := (issuedIds_consecutive
    [.addBook sampleClock (.str "A") (.str "B") (.num 2000), .removeBook (.num 1),
     .addBook sampleClock (.str "") (.str "B") (.num 2000), .markAsRead sampleClock (.num 7),
     .addBook sampleClock (.str "C") (.str "D") (.num 2001)] (by decide)).1
  rw [h]
  decide

/-- C5: in a reachable state, for a title and an author that are non-blank strings and a
year that is an integer between zero and the current year, `addBook` returns a record `b`,
and `getBookById(b.id)` on the resulting state returns `b` . -/
theorem getBookById_addBook (lib : BookLibrary) (hr : Reachable lib) (now : Clock)
    (title author year : JSVal) (ht : NonBlankString title) (ha : NonBlankString author)
    (hy : YearInRange now year) :
    ∃ b : Book, (lib.addBook now title author year).2 = .ok b ∧
      (lib.addBook now title author year).1.getBookById (.num b.id) = .ok b ∧
      b.isRead = false ∧ b.addedDate = now.isoDate := by
  have h1 : invalidText title = false := (invalidText_eq_false_iff _).mpr ht
  have h2 : invalidText author = false := (invalidText_eq_false_iff _).mpr ha
  have h3 : invalidYear now year = false := (invalidYear_eq_false_iff _ _).mpr hy
  obtain ⟨hlt, _⟩ := reachable_idsFresh hr
  have hnone : lib.books.find? (fun x => strictEq x.id (.num lib.nextId)) = none := by
    rw [List.find?_eq_none]
    intro x hx hs
    have e := (strictEq_iff _ _).mp hs
    injection e with e
    have e' : lib.nextId = x.id := Int.ofNat_inj.mp e
    have := hlt x.id (List.mem_map_of_mem Book.id hx)
    omega
  refine ⟨{ id := lib.nextId, title := jsTrim title.text, author := jsTrim author.text,
             year := year.int, isRead := false, addedDate := now.isoDate,
             readDate := none }, ?_, ?_, rfl, rfl⟩
  · simp [addBook, h1, h2, h3]
  · simp [addBook, h1, h2, h3, getBookById, findBook, List.find?_append, hnone, strictEq_iff]

/-- C5, on the catalog of one book. -/
theorem getBookById_addBook_witness :
    ∃ b : Book,
      (oneBook.addBook sampleClock (.str " T ") (.str "A") (.num 1999)).2 = .ok b ∧
      (oneBook.addBook sampleClock (.str " T ") (.str "A") (.num 1999)).1.getBookById
        (.num b.id) = .ok b ∧
      b.isRead = false ∧ b.addedDate = sampleClock.isoDate :=
  getBookById_addBook oneBook (Reachable.exec _ (.addBook sampleClock (.str "Книга")
    (.str "Автор") (.num 2000)) Reachable.new) sampleClock (.str " T ") (.str "A") (.num 1999)
    (by decide) (by decide) (by decide)

end BookLibrary

namespace BookLibrary

theorem removeBook_books (lib : BookLibrary) (bookId : JSVal) :
    (lib.removeBook bookId).1.books = lib.books.filter (fun b => !strictEq b.id bookId) := by
  unfold removeBook
  simp only
  split <;> rfl

theorem filter_eq_self_of_absent (lib : BookLibrary) (bookId : JSVal)
    (h : ∀ b ∈ lib.books, bookId ≠ .num b.id) :
    lib.books.filter (fun b => !strictEq b.id bookId) = lib.books := by
  rw [List.filter_eq_self]
  intro b hb
  have : ¬ strictEq b.id bookId = true := fun hs => h b hb ((strictEq_iff _ _).mp hs)
  simpa using this

theorem length_filter_lt_of_present (lib : BookLibrary) (bookId : JSVal) (b : Book)
    (hb : b ∈ lib.books) (hid : bookId = .num b.id) :
    (lib.books.filter (fun b => !strictEq b.id bookId)).length < lib.books.length := by
  refine lt_of_le_of_ne (List.length_filter_le _ _) ?_
  intro hlen
  have e := List.Sublist.eq_of_length (List.filter_sublist lib.books) hlen
  rw [List.filter_eq_self] at e
  have h1 := e b hb
  have h2 : strictEq b.id bookId = true := (strictEq_iff _ _).mpr hid
  simp [h2] at h1

/-- C7: in a reachable state, `removeBook(id)` throws the not-found error carrying `id`
exactly when no stored book has that id, and then `books` and `nextId` are as before;
when a stored book `b` has that id the call returns, `nextId` is as before, the count drops
by one, and the new list is the old list with `b` taken out of its place: the books before
and after it stay, unchanged and in their order. -/
theorem removeBook_spec (lib : BookLibrary) (hr : Reachable lib) (bookId : JSVal) :
    ((lib.removeBook bookId).2 = .error (.notFound bookId) ↔
      ∀ b ∈ lib.books, bookId ≠ .num b.id) ∧
    ((∀ b ∈ lib.books, bookId ≠ .num b.id) → (lib.removeBook bookId).1 = lib) ∧
    (∀ b ∈ lib.books, bookId = .num b.id →
      (lib.removeBook bookId).2 = .ok () ∧
      (lib.removeBook bookId).1.nextId = lib.nextId ∧
      (lib.removeBook bookId).1.getBooksCount + 1 = lib.getBooksCount ∧
      b ∉ (lib.removeBook bookId).1.books ∧
      ∃ l1 l2, lib.books = l1 ++ b :: l2 ∧ (lib.removeBook bookId).1.books = l1 ++ l2) := by
  obtain ⟨_, hnd⟩ := reachable_idsFresh hr
  have hpresent : ∀ b ∈ lib.books, bookId = .num b.id →
      (lib.removeBook bookId).2 = .ok () := by
    intro b hb hid
    have hlt := length_filter_lt_of_present lib bookId b hb hid
    unfold removeBook
    simp only
    rw [if_neg (Nat.ne_of_lt hlt)]
  refine ⟨⟨?_, ?_⟩, ?_, ?_⟩
  · intro herr b hb hid
    rw [hpresent b hb hid] at herr
    cases herr
  · intro h
    unfold removeBook
    simp only
    rw [filter_eq_self_of_absent lib bookId h]
    simp
  · intro h
    unfold removeBook
    simp only
    rw [filter_eq_self_of_absent lib bookId h]
    simp
  · intro b hb hid
    obtain ⟨l1, l2, hsplit⟩ := List.append_of_mem hb
    have hnd2 : (b.id :: (l1.map Book.id ++ l2.map Book.id)).Nodup := by
      have := hnd
      rw [hsplit, List.map_append, List.map_cons] at this
      exact List.nodup_middle.mp this
    have hnot : b.id ∉ l1.map Book.id ++ l2.map Book.id := (List.nodup_cons.mp hnd2).1
    have hkeep : ∀ l : List Book, (∀ x ∈ l, x.id ∈ l1.map Book.id ++ l2.map Book.id) →
        l.filter (fun x => !strictEq x.id bookId) = l := by
      intro l hl
      rw [List.filter_eq_self]
      intro x hx
      have : ¬ strictEq x.id bookId = true := by
        intro hs
        have e := (strictEq_iff _ _).mp hs
        rw [hid] at e
        injection e with e
        have e' : b.id = x.id := Int.ofNat_inj.mp e
        exact hnot (e' ▸ hl x hx)
      simpa using this
    have hb' : strictEq b.id bookId = true := (strictEq_iff _ _).mpr hid
    have hbooks : (lib.removeBook bookId).1.books = l1 ++ l2 := by
      rw [removeBook_books, hsplit, List.filter_append, List.filter_cons]
      simp only [hb', Bool.not_true, Bool.false_eq_true, if_false]
      rw [hkeep l1 (fun x hx => List.mem_append_left _ (List.mem_map_of_mem Book.id hx)),
        hkeep l2 (fun x hx => List.mem_append_right _ (List.mem_map_of_mem Book.id hx))]
    refine ⟨hpresent b hb hid, removeBook_nextId lib bookId, ?_, ?_, l1, l2, hsplit, hbooks⟩
    · unfold getBooksCount
      rw [hbooks, hsplit]
      simp
      omega
    · rw [removeBook_books]
      intro hmem
      have := (List.mem_filter.mp hmem).2
      simp [hb'] at this

/-- C7, on the catalog of one book: removing id 1 returns and empties the list. -/
theorem removeBook_spec_witness :
    (oneBook.removeBook (.num 1)).2 = .ok () ∧
      (oneBook.removeBook (.num 1)).1.nextId = oneBook.nextId ∧
      (oneBook.removeBook (.num 1)).1.getBooksCount + 1 = oneBook.getBooksCount :=
  have h := (removeBook_spec oneBook (Reachable.exec _ (.addBook sampleClock (.str "Книга")
    (.str "Автор") (.num 2000)) Reachable.new) (.num 1)).2.2
    theBook (by decide) (by decide)
  ⟨h.1, h.2.1, h.2.2.1⟩

/-- C8: in every state, after `removeBook(id)` has returned, `getBookById(id)` throws the
not-found error and a second `removeBook(id)` throws the not-found error. -/
theorem removeBook_final (lib : BookLibrary) (bookId : JSVal)
    (_h : (lib.removeBook bookId).2 = .ok ()) :
    (lib.removeBook bookId).1.getBookById bookId = .error (.notFound bookId) ∧
      ((lib.removeBook bookId).1.removeBook bookId).2 = .error (.notFound bookId) := by
  have habs : ∀ b ∈ (lib.removeBook bookId).1.books, bookId ≠ .num b.id := by
    intro b hb hid
    rw [removeBook_books] at hb
    have h1 := (List.mem_filter.mp hb).2
    have h2 : strictEq b.id bookId = true := (strictEq_iff _ _).mpr hid
    simp [h2] at h1
  constructor
  · unfold getBookById
    rw [findBook_eq_none.mpr habs]
  · generalize lib.removeBook bookId = r at habs
    unfold removeBook
    simp only
    rw [filter_eq_self_of_absent r.1 bookId habs]
    simp

/-- C8, on the catalog of one book. -/
theorem removeBook_final_witness :
    (oneBook.removeBook (.num 1)).1.getBookById (.num 1) = .error (.notFound (.num 1)) ∧
      ((oneBook.removeBook (.num 1)).1.removeBook (.num 1)).2 =
        .error (.notFound (.num 1)) :=
  removeBook_final oneBook (.num 1) (by decide)

end BookLibrary

namespace BookLibrary

/-- C9: in a state whose stored ids are pairwise distinct (as in every reachable state), for
a stored book `b`: if `b` is unread, `markAsRead(b.id)` returns `b` marked read with the
clock date, and a second `markAsRead(b.id)` throws the already-read error carrying the title
of `b` and leaves the state as the first call left it; and `markAsUnread(b.id)` returns `b`
with `isRead = false` and no `readDate`, and a second `markAsUnread(b.id)` yields the same
state and the same record as the first. -/
theorem markAsRead_twice_markAsUnread_twice (lib : BookLibrary)
    (hd : (lib.books.map Book.id).Nodup) (b : Book) (hb : b ∈ lib.books)
    (now1 now2 : Clock) :
    (b.isRead = false →
      (lib.markAsRead now1 (.num b.id)).2 =
          .ok { b with isRead := true, readDate := some now1.isoDate } ∧
        (lib.markAsRead now1 (.num b.id)).1.markAsRead now2 (.num b.id) =
          ((lib.markAsRead now1 (.num b.id)).1, .error (.alreadyRead b.title))) ∧
    ((lib.markAsUnread (.num b.id)).2 = .ok { b with isRead := false, readDate := none } ∧
      (lib.markAsUnread (.num b.id)).1.markAsUnread (.num b.id) =
        lib.markAsUnread (.num b.id)) := by
  have hfind : lib.findBook (.num b.id) = some b :=
    find_of_mem_nodup (.num b.id) b rfl lib.books hd hb
  constructor
  · intro hu
    have e1 : lib.markAsRead now1 (.num b.id) =
        (lib.assign (.num b.id) { b with isRead := true, readDate := some now1.isoDate },
          .ok { b with isRead := true, readDate := some now1.isoDate }) := by
      unfold markAsRead
      rw [hfind]
      simp [hu]
    have hfind2 : (lib.assign (.num b.id)
        { b with isRead := true, readDate := some now1.isoDate }).findBook (.num b.id) =
        some { b with isRead := true, readDate := some now1.isoDate } :=
      findBook_assign hfind rfl
    rw [e1]
    refine ⟨rfl, ?_⟩
    show markAsRead _ now2 _ = _
    unfold markAsRead
    rw [hfind2]
    simp
  · have e1 : lib.markAsUnread (.num b.id) =
        (lib.assign (.num b.id) { b with isRead := false, readDate := none },
          .ok { b with isRead := false, readDate := none }) := by
      unfold markAsUnread
      rw [hfind]
    have hfind2 : (lib.assign (.num b.id)
        { b with isRead := false, readDate := none }).findBook (.num b.id) =
        some { b with isRead := false, readDate := none } :=
      findBook_assign hfind rfl
    rw [e1]
    refine ⟨rfl, ?_⟩
    show markAsUnread _ _ = _
    unfold markAsUnread
    rw [hfind2]
    simp only [assign]
    rw [replaceFirst_idem _ _ ((strictEq_iff _ _).mpr rfl)]

/-- C9, on the catalog of one unread book. -/
theorem markAsRead_twice_markAsUnread_twice_witness :
    (oneBook.markAsRead sampleClock (.num 1)).1.markAsRead sampleClock (.num 1) =
        ((oneBook.markAsRead sampleClock (.num 1)).1, .error (.alreadyRead "Книга")) ∧
      (oneBook.markAsUnread (.num 1)).1.markAsUnread (.num 1) =
        oneBook.markAsUnread (.num 1) :=
  have h := markAsRead_twice_markAsUnread_twice oneBook (by decide)
    theBook (by decide) sampleClock sampleClock
  ⟨(h.1 rfl).2, h.2.2⟩

/-- C10: in every state reachable from a new catalog by calls of `addBook`, `removeBook`,
`markAsRead`, `markAsUnread`, `updateBook` and `clearLibrary`, returning or throwing, every
stored book has a `readDate` exactly when its `isRead` is true. -/
theorem readDate_iff_isRead (lib : BookLibrary) (hr : Reachable lib) (b : Book)
    (hb : b ∈ lib.books) : b.readDate.isSome = true ↔ b.isRead = true := by
  induction hr generalizing b with
  | new => simp [BookLibrary.new] at hb
  | exec lib c _ ih => exact step_readDate (exec_step lib c) ih b hb

/-- C10, after marking the book of the one-book catalog as read. -/
theorem readDate_iff_isRead_witness :
    { theBook with isRead := true, readDate := some "2025-06-01" } ∈ oneBookRead.books ∧
      ((some "2025-06-01" : Option String).isSome = true ↔ true = true) :=
  ⟨by decide,
    readDate_iff_isRead oneBookRead
      (Reachable.exec _ _ (Reachable.exec _ (.addBook sampleClock (.str "Книга")
        (.str "Автор") (.num 2000)) Reachable.new))
      { theBook with isRead := true, readDate := some "2025-06-01" } (by decide)⟩

end BookLibrary

namespace BookLibrary

/-! ## Claims about the id invariant, the reset and the checks of `updateBook` -/

theorem step_idsPositive {lib lib' : BookLibrary} (hs : Step lib lib')
    (h : 0 < lib.nextId ∧ ∀ i ∈ lib.books.map Book.id, 0 < i) :
    0 < lib'.nextId ∧ ∀ i ∈ lib'.books.map Book.id, 0 < i := by
  obtain ⟨hn, hpos⟩ := h
  cases hs with
  | same => exact ⟨hn, hpos⟩
  | added book hid hread hdate =>
    refine ⟨Nat.succ_pos _, ?_⟩
    intro i hi
    simp only [List.map_append, List.map_cons, List.map_nil, List.mem_append,
      List.mem_singleton] at hi
    rcases hi with hi | hi
    · exact hpos i hi
    · omega
  | removed bookId =>
    have hsub : List.Sublist ((lib.books.filter (fun b => !strictEq b.id bookId)).map Book.id)
        (lib.books.map Book.id) := (List.filter_sublist _).map _
    exact ⟨hn, fun i hi => hpos i (hsub.subset hi)⟩
  | assigned bookId book book' hfind hid hadded hread =>
    have hb : strictEq book'.id bookId = true := by
      rw [strictEq_iff, hid]
      exact (findBook_some hfind).2
    have e : (lib.assign bookId book').books.map Book.id = lib.books.map Book.id :=
      replaceFirst_map_id bookId book' hb lib.books
    exact ⟨hn, fun i hi => hpos i (e ▸ hi)⟩
  | cleared => exact ⟨by simp [BookLibrary.new], by simp [BookLibrary.new]⟩

theorem reachable_idsPositive {lib : BookLibrary} (h : Reachable lib) :
    0 < lib.nextId ∧ ∀ i ∈ lib.books.map Book.id, 0 < i := by
  induction h with
  | new => exact ⟨by simp [BookLibrary.new], by simp [BookLibrary.new]⟩
  | exec lib c _ ih => exact step_idsPositive (exec_step lib c) ih

/-- C11: in every state reachable from a new catalog by calls, returning or throwing and
`clearLibrary` included, the stored ids are pairwise distinct, every stored id is positive,
and `nextId` is greater than every stored id. -/
theorem ids_distinct_positive_below_nextId (lib : BookLibrary) (hr : Reachable lib) :
    (lib.books.map Book.id).Nodup ∧ lib.books.Pairwise (fun a b => a.id ≠ b.id) ∧
      ∀ b ∈ lib.books, 0 < b.id ∧ b.id < lib.nextId := by
  obtain ⟨hlt, hnd⟩ := reachable_idsFresh hr
  obtain ⟨_, hpos⟩ := reachable_idsPositive hr
  refine ⟨hnd, ?_, ?_⟩
  · exact List.pairwise_map.mp hnd
  · intro b hb
    exact ⟨hpos b.id (List.mem_map_of_mem Book.id hb), hlt b.id (List.mem_map_of_mem Book.id hb)⟩

theorem reachable_run (calls : List Call) :
    ∀ lib : BookLibrary, Reachable lib → Reachable (lib.run calls) := by
  induction calls with
  | nil => exact fun _ h => h
  | cons c cs ih => exact fun lib h => ih _ (Reachable.exec lib c h)

/-- C11, on the catalog of four books, whose ids are 1, 2, 3, 4 and whose `nextId` is 5. -/
theorem ids_distinct_positive_below_nextId_witness :
    fourBooks.books.map Book.id = [1, 2, 3, 4] ∧ fourBooks.nextId = 5 ∧
      (fourBooks.books.map Book.id).Nodup ∧
      fourBooks.books.Pairwise (fun a b => a.id ≠ b.id) ∧
      ∀ b ∈ fourBooks.books, 0 < b.id ∧ b.id < fourBooks.nextId :=
  have h := ids_distinct_positive_below_nextId fourBooks
    (reachable_run _ BookLibrary.new Reachable.new)
  ⟨by decide, by decide, h.1, h.2.1, h.2.2⟩

/-- C19: `clearLibrary` leaves no books and `nextId = 1`, the state of a new catalog, and the
next `addBook` with a valid title, author and year returns the id 1. -/
theorem clearLibrary_resets (lib : BookLibrary) (now : Clock) (title author year : JSVal)
    (ht : NonBlankString title) (ha : NonBlankString author) (hy : YearInRange now year) :
    lib.clearLibrary = BookLibrary.new ∧ lib.clearLibrary.getBooksCount = 0 ∧
      lib.clearLibrary.getBooks = [] ∧ lib.clearLibrary.nextId = 1 ∧
      ∃ b : Book, (lib.clearLibrary.addBook now title author year).2 = .ok b ∧ b.id = 1 := by
  have h1 : invalidText title = false := (invalidText_eq_false_iff _).mpr ht
  have h2 : invalidText author = false := (invalidText_eq_false_iff _).mpr ha
  have h3 : invalidYear now year = false := (invalidYear_eq_false_iff _ _).mpr hy
  refine ⟨rfl, rfl, rfl, rfl, ?_⟩
  simp [addBook, h1, h2, h3, clearLibrary]

/-- C19, on the catalog of one book. -/
theorem clearLibrary_resets_witness :
    oneBook.clearLibrary = BookLibrary.new ∧ oneBook.clearLibrary.getBooksCount = 0 ∧
      oneBook.clearLibrary.getBooks = [] ∧ oneBook.clearLibrary.nextId = 1 ∧
      ∃ b : Book, (oneBook.clearLibrary.addBook sampleClock (.str "Т") (.str "А")
        (.num 1999)).2 = .ok b ∧ b.id = 1 :=
  clearLibrary_resets oneBook sampleClock (.str "Т") (.str "А") (.num 1999) (by decide)
    (by decide) (by decide)

theorem findBook_isSome_of_mem {lib : BookLibrary} {bookId : JSVal}
    (h : ∃ b ∈ lib.books, bookId = .num b.id) : ∃ book, lib.findBook bookId = some book := by
  cases hf : lib.findBook bookId with
  | some book => exact ⟨book, rfl⟩
  | none =>
    obtain ⟨b, hb, hid⟩ := h
    exact absurd hid (findBook_eq_none.mp hf b hb)

theorem not_allowed_iff (key : String) :
    (!allowedUpdates.contains key) = true ↔ key ≠ "title" ∧ key ≠ "author" ∧ key ≠ "year" := by
  simp [allowedUpdates]

/-- C17: `updateBook` throws the not-found error when no stored book has the id, whatever the
update set; when a stored book has the id and the update set has a key other than `title`,
`author`, `year`, it throws the invalid-fields error that lists exactly the keys of the
update set other than these three, in their order; in both cases the state is unchanged. -/
theorem updateBook_notFound_invalidFields (lib : BookLibrary) (now : Clock) (bookId : JSVal)
    (updates : JSObject) :
    ((∀ b ∈ lib.books, bookId ≠ .num b.id) →
      lib.updateBook now bookId updates = (lib, .error (.notFound bookId))) ∧
    ((∃ b ∈ lib.books, bookId = .num b.id) →
      (∃ k ∈ updates.own.map Prod.fst, k ≠ "title" ∧ k ≠ "author" ∧ k ≠ "year") →
      ∃ fields : List String,
        lib.updateBook now bookId updates = (lib, .error (.invalidFields fields)) ∧
        fields.Sublist (updates.own.map Prod.fst) ∧
        (∀ k, k ∈ fields ↔
          k ∈ updates.own.map Prod.fst ∧ k ≠ "title" ∧ k ≠ "author" ∧ k ≠ "year") ∧
        fields = (updates.own.map Prod.fst).filter
          (fun k => decide (k ≠ "title" ∧ k ≠ "author" ∧ k ≠ "year"))) := by
  constructor
  · intro h
    unfold updateBook
    rw [findBook_eq_none.mpr h]
  · intro hex hbad
    obtain ⟨book, hfind⟩ := findBook_isSome_of_mem hex
    have hfilter : (updates.own.map Prod.fst).filter (fun key => !allowedUpdates.contains key) =
        (updates.own.map Prod.fst).filter
          (fun k => decide (k ≠ "title" ∧ k ≠ "author" ∧ k ≠ "year")) := by
      apply List.filter_congr
      intro k _
      rw [Bool.eq_iff_iff, not_allowed_iff]
      simp
    have hmem : ∀ k, k ∈ (updates.own.map Prod.fst).filter
        (fun k => decide (k ≠ "title" ∧ k ≠ "author" ∧ k ≠ "year")) ↔
        k ∈ updates.own.map Prod.fst ∧ k ≠ "title" ∧ k ≠ "author" ∧ k ≠ "year" := by
      intro k
      rw [List.mem_filter]
      simp
    refine ⟨_, ?_, List.filter_sublist _, hmem, rfl⟩
    obtain ⟨k, hk, hk2⟩ := hbad
    have hpos : 0 < ((updates.own.map Prod.fst).filter
        (fun k => decide (k ≠ "title" ∧ k ≠ "author" ∧ k ≠ "year"))).length :=
      List.length_pos_of_mem ((hmem k).mpr ⟨hk, hk2⟩)
    unfold updateBook
    rw [hfind]
    simp only [hfilter]
    rw [if_pos hpos]

/-- C17, on the catalog of one book: the update of the test suite with the key `isRead`, and
an update of an id that is not stored. -/
theorem updateBook_notFound_invalidFields_witness :
    oneBook.updateBook sampleClock (.num 999) (.plain [("title", .str "Новое")]) =
        (oneBook, .error (.notFound (.num 999))) ∧
      ∃ fields : List String,
        oneBook.updateBook sampleClock (.num 1) (.plain [("isRead", .bool true)]) =
          (oneBook, .error (.invalidFields fields)) ∧ fields = ["isRead"] :=
  have h := updateBook_notFound_invalidFields oneBook sampleClock
  ⟨(h (.num 999) (.plain [("title", .str "Новое")])).1 (by decide),
    match (h (.num 1) (.plain [("isRead", .bool true)])).2 ⟨theBook, by decide, by decide⟩
      ⟨"isRead", by decide, by decide⟩ with
    | ⟨fields, h1, _, _, h4⟩ => ⟨fields, h1, h4.trans (by decide)⟩⟩

end BookLibrary

namespace BookLibrary

/-! ## The field steps of `updateBook` -/

theorem provided_text {updates : JSObject} {key : String}
    (h1 : getProp updates key ≠ .undefined) (h2 : ¬ invalidText (getProp updates key) = true) :
    ∃ s, getProp updates key = .str s ∧ jsTrim s ≠ "" := by
  have hv : NonBlankString (getProp updates key) :=
    by_contra fun k => h2 ((invalidText_eq_true_iff _).mpr k)
  generalize getProp updates key = v at h1 hv ⊢
  cases v <;> simp [NonBlankString] at hv ⊢
  exact hv

theorem provided_year {now : Clock} {updates : JSObject} {key : String}
    (h1 : getProp updates key ≠ .undefined)
    (h2 : ¬ invalidYear now (getProp updates key) = true) :
    ∃ n, getProp updates key = .num n ∧ 0 ≤ n ∧ n ≤ now.fullYear := by
  have hv : YearInRange now (getProp updates key) :=
    by_contra fun k => h2 ((invalidYear_eq_true_iff _ _).mpr k)
  generalize getProp updates key = v at h1 hv ⊢
  cases v <;> simp [YearInRange] at hv ⊢
  exact hv

theorem updateBook_cases (lib : BookLibrary) (now : Clock) (bookId : JSVal)
    (updates : JSObject) :
    (lib.updateBook now bookId updates).1 = lib ∨
      ∃ book book', lib.findBook bookId = some book ∧
        (lib.updateBook now bookId updates).1 = lib.assign bookId book' ∧
        UpdatedFrom now updates book book' := by
  unfold updateBook
  cases hfind : lib.findBook bookId with
  | none => exact Or.inl rfl
  | some book =>
    simp only
    split
    · exact Or.inl rfl
    · split
      · exact Or.inl rfl
      · rename_i hT
        have hT' : getProp updates "title" ≠ .undefined →
            ∃ s, getProp updates "title" = .str s ∧ jsTrim s ≠ "" :=
          fun h => provided_text h (fun k => hT ⟨h, k⟩)
        have r1 : UpdatedFrom now updates book
            (if getProp updates "title" ≠ .undefined then
              { book with title := jsTrim (getProp updates "title").text } else book) := by
          by_cases h : getProp updates "title" ≠ .undefined
          · obtain ⟨s, hs1, hs2⟩ := hT' h
            rw [if_pos h]
            exact ⟨rfl, rfl, rfl, rfl, Or.inr ⟨s, hs1, hs2, by simp [hs1, JSVal.text]⟩,
              Or.inl rfl, Or.inl rfl⟩
          · rw [if_neg h]
            exact ⟨rfl, rfl, rfl, rfl, Or.inl rfl, Or.inl rfl, Or.inl rfl⟩
        generalize (if getProp updates "title" ≠ .undefined then
              { book with title := jsTrim (getProp updates "title").text } else book) = book1
          at r1 ⊢
        split
        · exact Or.inr ⟨book, book1, rfl, rfl, r1⟩
        · rename_i hA
          have hA' : getProp updates "author" ≠ .undefined →
              ∃ s, getProp updates "author" = .str s ∧ jsTrim s ≠ "" :=
            fun h => provided_text h (fun k => hA ⟨h, k⟩)
          have r2 : UpdatedFrom now updates book
              (if getProp updates "author" ≠ .undefined then
                { book1 with author := jsTrim (getProp updates "author").text }
              else book1) := by
            obtain ⟨q1, q2, q3, q4, q5, q6, q7⟩ := r1
            by_cases h : getProp updates "author" ≠ .undefined
            · obtain ⟨s, hs1, hs2⟩ := hA' h
              rw [if_pos h]
              exact ⟨q1, q2, q3, q4, q5, Or.inr ⟨s, hs1, hs2, by simp [hs1, JSVal.text]⟩, q7⟩
            · rw [if_neg h]
              exact ⟨q1, q2, q3, q4, q5, q6, q7⟩
          generalize (if getProp updates "author" ≠ .undefined then
                { book1 with author := jsTrim (getProp updates "author").text }
              else book1) = book2 at r2 ⊢
          have r3 : ¬ (getProp updates "year" ≠ .undefined ∧
                invalidYear now (getProp updates "year") = true) →
              UpdatedFrom now updates book
                (if getProp updates "year" ≠ .undefined then
                  { book2 with year := (getProp updates "year").int } else book2) := by
            intro hY
            obtain ⟨q1, q2, q3, q4, q5, q6, q7⟩ := r2
            by_cases h : getProp updates "year" ≠ .undefined
            · obtain ⟨n, hn1, hn2, hn3⟩ := provided_year h (fun k => hY ⟨h, k⟩)
              rw [if_pos h]
              exact ⟨q1, q2, q3, q4, q5, q6,
                Or.inr ⟨n, hn1, hn2, hn3, by simp [hn1, JSVal.int]⟩⟩
            · rw [if_neg h]
              exact ⟨q1, q2, q3, q4, q5, q6, q7⟩
          split
          · exact Or.inr ⟨book, book2, rfl, rfl, r2⟩
          · rename_i hY
            exact Or.inr ⟨book, _, rfl, rfl, r3 hY⟩

end BookLibrary

namespace BookLibrary

/-! ## Trimming twice -/

theorem dropWhile_prefix_of_head (p : Char → Bool) (d : List Char)
    (hd : d.dropWhile p = d) (r w : List Char) (h : d = r ++ w) : r.dropWhile p = r := by
  cases r with
  | nil => rfl
  | cons c r' =>
    subst h
    by_cases hc : p c = true
    · have hlen := congrArg List.length hd
      rw [List.cons_append, List.dropWhile_cons_of_pos hc] at hlen
      have hle := (List.dropWhile_suffix p (l := r' ++ w)).length_le
      simp only [List.length_cons] at hlen
      omega
    · exact List.dropWhile_cons_of_neg hc

theorem trimChars_idem (cs : List Char) : trimChars (trimChars cs) = trimChars cs := by
  unfold trimChars
  have hsuf := List.dropWhile_suffix isJSWhitespace
    (l := (cs.dropWhile isJSWhitespace).reverse)
  obtain ⟨w, hw⟩ := hsuf
  have hd : (cs.dropWhile isJSWhitespace) =
      ((cs.dropWhile isJSWhitespace).reverse.dropWhile isJSWhitespace).reverse ++ w.reverse := by
    have := congrArg List.reverse hw
    simpa using this.symm
  have hA := dropWhile_prefix_of_head isJSWhitespace (cs.dropWhile isJSWhitespace)
    (List.dropWhile_idempotent _ _) _ _ hd
  rw [hA, List.reverse_reverse, List.dropWhile_idempotent]

theorem jsTrim_idem (s : String) : jsTrim (jsTrim s) = jsTrim s := by
  unfold jsTrim
  simp only [trimChars_idem]

/-! ## Frames -/

theorem forall2_replaceFirst {R : Book → Book → Prop} (hrefl : ∀ x, R x x) (p : Book → Bool)
    (b b' : Book) (hR : R b b') :
    ∀ l : List Book, l.find? p = some b → List.Forall₂ R l (replaceFirst p b' l) := by
  intro l
  induction l with
  | nil => intro h; simp at h
  | cons x xs ih =>
    intro h
    unfold replaceFirst
    by_cases hx : p x = true
    · simp only [List.find?_cons, hx, Option.some.injEq] at h
      subst h
      rw [if_pos hx]
      exact List.Forall₂.cons hR (List.forall₂_same.mpr (fun y _ => hrefl y))
    · simp only [List.find?_cons, hx] at h
      rw [if_neg hx]
      exact List.Forall₂.cons (hrefl x) (ih h)

theorem markFrame_refl (bookId : JSVal) (x : Book) : MarkFrame bookId x x :=
  ⟨rfl, rfl, rfl, rfl, rfl, fun _ => rfl⟩

theorem updateFrame_refl (bookId : JSVal) (updates : JSObject) (x : Book) :
    UpdateFrame bookId updates x x :=
  ⟨rfl, rfl, rfl, rfl, fun _ => rfl, Or.inl rfl, Or.inl rfl, Or.inl rfl⟩

theorem updateFrame_of_updatedFrom {lib : BookLibrary} {now : Clock} {bookId : JSVal}
    {updates : JSObject} {book book' : Book}
    (hfind : lib.findBook bookId = some book) (h : UpdatedFrom now updates book book') :
    UpdateFrame bookId updates book book' := by
  obtain ⟨q1, q2, q3, q4, q5, q6, q7⟩ := h
  refine ⟨q1, q2, q3, q4, fun hne => absurd (findBook_some hfind).2 hne, ?_, ?_, ?_⟩
  · rcases q5 with h | ⟨t, h1, _, h3⟩
    · exact Or.inl h
    · exact Or.inr ⟨t, h1, h3⟩
  · rcases q6 with h | ⟨t, h1, _, h3⟩
    · exact Or.inl h
    · exact Or.inr ⟨t, h1, h3⟩
  · rcases q7 with h | ⟨n, h1, _, _, h4⟩
    · exact Or.inl h
    · exact Or.inr ⟨n, h1, h4⟩

theorem lookup_eq_none_of_not_mem (key : String) :
    ∀ l : List (String × JSVal), key ∉ l.map Prod.fst → l.lookup key = none := by
  intro l
  induction l with
  | nil => intro _; rfl
  | cons x xs ih =>
    intro h
    rw [List.map_cons, List.mem_cons, not_or] at h
    have hne : (key == x.1) = false := by simpa using h.1
    obtain ⟨k, v⟩ := x
    simp only [List.lookup, hne]
    exact ih h.2

theorem getProp_of_absent (updates : JSObject) (key : String)
    (h1 : key ∉ updates.own.map Prod.fst) (h2 : key ∉ updates.other.map Prod.fst) :
    getProp updates key = .undefined := by
  unfold getProp
  rw [lookup_eq_none_of_not_mem key _ h1, lookup_eq_none_of_not_mem key _ h2]
  rfl

/-- C20: for every state and every call of `markAsRead`, `markAsUnread` or `updateBook`,
returning or throwing, `nextId` is unchanged and the list after the call matches the list
before it position by position: a book with a different id is unchanged, and every book
keeps its id and `addedDate`; after `markAsRead` and `markAsUnread` also its title, author
and year; after `updateBook` also its `isRead` and `readDate`, and its title, author and year
are either as before or the (trimmed) value that the update set holds for that key: the value
read from the argument, through an own or an inherited property; a key that is neither among
the own nor among the other properties of the argument reads as `undefined`, so its field is
as before. -/
theorem mutators_frame (lib : BookLibrary) (now : Clock) (bookId : JSVal)
    (updates : JSObject) :
    ((lib.markAsRead now bookId).1.nextId = lib.nextId ∧
      List.Forall₂ (MarkFrame bookId) lib.books (lib.markAsRead now bookId).1.books) ∧
    ((lib.markAsUnread bookId).1.nextId = lib.nextId ∧
      List.Forall₂ (MarkFrame bookId) lib.books (lib.markAsUnread bookId).1.books) ∧
    ((lib.updateBook now bookId updates).1.nextId = lib.nextId ∧
      List.Forall₂ (UpdateFrame bookId updates) lib.books
        (lib.updateBook now bookId updates).1.books) ∧
    (∀ key, key ∉ updates.own.map Prod.fst → key ∉ updates.other.map Prod.fst →
      getProp updates key = .undefined) := by
  have hsameM : List.Forall₂ (MarkFrame bookId) lib.books lib.books :=
    List.forall₂_same.mpr (fun y _ => markFrame_refl bookId y)
  refine ⟨⟨markAsRead_nextId lib now bookId, ?_⟩, ⟨markAsUnread_nextId lib bookId, ?_⟩,
    ⟨updateBook_nextId lib now bookId updates, ?_⟩, getProp_of_absent updates⟩
  · unfold markAsRead
    cases hfind : lib.findBook bookId with
    | none => exact hsameM
    | some book =>
      simp only
      split
      · exact hsameM
      · exact forall2_replaceFirst (markFrame_refl bookId) _ book
          { book with isRead := true, readDate := some now.isoDate }
          ⟨rfl, rfl, rfl, rfl, rfl, fun hne => absurd (findBook_some hfind).2 hne⟩
          lib.books hfind
  · unfold markAsUnread
    cases hfind : lib.findBook bookId with
    | none => exact hsameM
    | some book =>
      exact forall2_replaceFirst (markFrame_refl bookId) _ book
        { book with isRead := false, readDate := none }
        ⟨rfl, rfl, rfl, rfl, rfl, fun hne => absurd (findBook_some hfind).2 hne⟩
        lib.books hfind
  · rcases updateBook_cases lib now bookId updates with h | ⟨book, book', hfind, h, hrel⟩
    · rw [h]
      exact List.forall₂_same.mpr (fun y _ => updateFrame_refl bookId updates y)
    · rw [h]
      exact forall2_replaceFirst (updateFrame_refl bookId updates) _ book book'
        (updateFrame_of_updatedFrom hfind hrel) lib.books hfind

/-- C20, on the catalog of one book: an update whose title is inherited from the prototype
of the argument changes the stored title to it and nothing else, and an update by the object
literal with the single key `year` leaves the title and the author as they were. -/
theorem mutators_frame_witness :
    (oneBook.updateBook sampleClock (.num 1) (inheritedTitle (.str " Унаследованное "))).1 =
        { books := [{ theBook with title := "Унаследованное" }], nextId := 2 } ∧
      List.Forall₂ (UpdateFrame (.num 1) (inheritedTitle (.str " Унаследованное ")))
        oneBook.books
        (oneBook.updateBook sampleClock (.num 1)
          (inheritedTitle (.str " Унаследованное "))).1.books ∧
      (oneBook.updateBook sampleClock (.num 1) (.plain [("year", .num 1999)])).1 =
        { books := [{ theBook with year := 1999 }], nextId := 2 } ∧
      getProp (.plain [("year", .num 1999)]) "title" = .undefined :=
  ⟨by decide,
    (mutators_frame oneBook sampleClock (.num 1)
      (inheritedTitle (.str " Унаследованное "))).2.2.1.2,
    by decide,
    (mutators_frame oneBook sampleClock (.num 1) (.plain [("year", .num 1999)])).2.2.2
      "title" (by decide) (by decide)⟩

end BookLibrary

namespace BookLibrary

/-! ## Validity of the stored books -/

theorem validBook_mono {y y' : Int} (h : y ≤ y') {b : Book} (hb : ValidBook y b) :
    ValidBook y' b :=
  ⟨hb.1, hb.2.1, hb.2.2.1, hb.2.2.2.1, hb.2.2.2.2.1, le_trans hb.2.2.2.2.2 h⟩

theorem validBook_of_same_fields {y : Int} {b b' : Book} (hb : ValidBook y b)
    (ht : b'.title = b.title) (ha : b'.author = b.author) (hy : b'.year = b.year) :
    ValidBook y b' := by
  unfold ValidBook at hb ⊢
  rw [ht, ha, hy]
  exact hb

theorem addBook_valid (lib : BookLibrary) (now : Clock) (title author year : JSVal)
    (h : ∀ b ∈ lib.books, ValidBook now.fullYear b) :
    ∀ b ∈ (lib.addBook now title author year).1.books, ValidBook now.fullYear b := by
  unfold addBook
  split
  · exact h
  · rename_i h1
    split
    · exact h
    · rename_i h2
      split
      · exact h
      · rename_i h3
        intro b hb
        rcases List.mem_append.mp hb with hb | hb
        · exact h b hb
        · rw [List.mem_singleton] at hb
          subst hb
          obtain ⟨t, _, ht2, ht3⟩ : ∃ s, title = .str s ∧ jsTrim s ≠ "" ∧ title.text = s := by
            have := (invalidText_eq_false_iff title).mp (by simpa using h1)
            cases title <;> simp [NonBlankString] at this
            exact ⟨_, rfl, this, rfl⟩
          obtain ⟨a, _, ha2, ha3⟩ : ∃ s, author = .str s ∧ jsTrim s ≠ "" ∧ author.text = s := by
            have := (invalidText_eq_false_iff author).mp (by simpa using h2)
            cases author <;> simp [NonBlankString] at this
            exact ⟨_, rfl, this, rfl⟩
          obtain ⟨n, _, hn2, hn3, hn4⟩ :
              ∃ n, year = .num n ∧ 0 ≤ n ∧ n ≤ now.fullYear ∧ year.int = n := by
            have := (invalidYear_eq_false_iff now year).mp (by simpa using h3)
            cases year <;> simp [YearInRange] at this
            exact ⟨_, rfl, this.1, this.2, rfl⟩
          refine ⟨?_, ?_, ?_, ?_, ?_, ?_⟩
          · simpa [ht3] using ht2
          · simp [ht3, jsTrim_idem]
          · simpa [ha3] using ha2
          · simp [ha3, jsTrim_idem]
          · simpa [hn4] using hn2
          · simpa [hn4] using hn3

theorem assign_valid {y : Int} {lib : BookLibrary} {bookId : JSVal} {book' : Book}
    (h : ∀ b ∈ lib.books, ValidBook y b) (hb' : ValidBook y book') :
    ∀ b ∈ (lib.assign bookId book').books, ValidBook y b := by
  intro b hb
  rcases mem_replaceFirst hb with hb | hb
  · exact h b hb
  · exact hb ▸ hb'

theorem updatedFrom_valid {now : Clock} {updates : JSObject} {b b' : Book}
    (hb : ValidBook now.fullYear b) (h : UpdatedFrom now updates b b') :
    ValidBook now.fullYear b' := by
  obtain ⟨_, _, _, _, q5, q6, q7⟩ := h
  obtain ⟨v1, v2, v3, v4, v5, v6⟩ := hb
  refine ⟨?_, ?_, ?_, ?_, ?_, ?_⟩
  · rcases q5 with h | ⟨t, _, h2, h3⟩
    · rw [h]; exact v1
    · rw [h3]; exact h2
  · rcases q5 with h | ⟨t, _, _, h3⟩
    · rw [h]; exact v2
    · rw [h3]; exact jsTrim_idem t
  · rcases q6 with h | ⟨t, _, h2, h3⟩
    · rw [h]; exact v3
    · rw [h3]; exact h2
  · rcases q6 with h | ⟨t, _, _, h3⟩
    · rw [h]; exact v4
    · rw [h3]; exact jsTrim_idem t
  · rcases q7 with h | ⟨n, _, h2, _, h4⟩
    · rw [h]; exact v5
    · rw [h4]; exact h2
  · rcases q7 with h | ⟨n, _, _, h3, h4⟩
    · rw [h]; exact v6
    · rw [h4]; exact h3

theorem updateBook_valid (lib : BookLibrary) (now : Clock) (bookId : JSVal)
    (updates : JSObject) (h : ∀ b ∈ lib.books, ValidBook now.fullYear b) :
    ∀ b ∈ (lib.updateBook now bookId updates).1.books, ValidBook now.fullYear b := by
  rcases updateBook_cases lib now bookId updates with e | ⟨book, book', hfind, e, hrel⟩
  · rw [e]; exact h
  · rw [e]
    exact assign_valid h (updatedFrom_valid (h book (findBook_some hfind).1) hrel)

theorem exec_valid (lib : BookLibrary) (y : Int) (c : Call) (hc : c.inYear y)
    (h : ∀ b ∈ lib.books, ValidBook y b) : ∀ b ∈ (lib.exec c).1.books, ValidBook y b := by
  cases c with
  | addBook now title author year =>
    have hy : now.fullYear = y := hc
    subst hy
    exact addBook_valid lib now title author year h
  | removeBook bookId =>
    intro b hb
    have hb' : b ∈ (lib.removeBook bookId).1.books := hb
    rw [removeBook_books] at hb'
    exact h b (List.mem_of_mem_filter hb')
  | markAsRead now bookId =>
    show ∀ b ∈ (lib.markAsRead now bookId).1.books, ValidBook y b
    unfold markAsRead
    cases hfind : lib.findBook bookId with
    | none => exact h
    | some book =>
      simp only
      split
      · exact h
      · exact assign_valid h
          (validBook_of_same_fields (h book (findBook_some hfind).1) rfl rfl rfl)
  | markAsUnread bookId =>
    show ∀ b ∈ (lib.markAsUnread bookId).1.books, ValidBook y b
    unfold markAsUnread
    cases hfind : lib.findBook bookId with
    | none => exact h
    | some book =>
      exact assign_valid h
        (validBook_of_same_fields (h book (findBook_some hfind).1) rfl rfl rfl)
  | updateBook now bookId updates =>
    have hy : now.fullYear = y := hc
    subst hy
    exact updateBook_valid lib now bookId updates h
  | clearLibrary =>
    intro b hb
    simp [exec, clearLibrary] at hb

/-- C12: in every state reachable from a new catalog while the current year never decreases,
every stored book has a title and an author that are non-empty and equal to their trimmed
form and a year between zero and the current year; and this still holds for the state left
by an `updateBook` call made in the current year, also one that throws after some of its
field checks. -/
theorem stored_books_valid (y : Int) (lib : BookLibrary) (hr : ReachableInYear y lib) :
    (∀ b ∈ lib.books, ValidBook y b) ∧
      ∀ (now : Clock) (bookId : JSVal) (updates : JSObject),
        now.fullYear = y →
        ∀ b ∈ (lib.updateBook now bookId updates).1.books, ValidBook y b := by
  have main : ∀ b ∈ lib.books, ValidBook y b := by
    induction hr with
    | new y => intro b hb; simp [BookLibrary.new] at hb
    | later y y' lib _ hle ih => exact fun b hb => validBook_mono hle (ih b hb)
    | exec y lib c _ hc ih => exact exec_valid lib y c hc ih
  refine ⟨main, ?_⟩
  intro now bookId updates hy
  subst hy
  exact updateBook_valid lib now bookId updates main

/-- C12, on the catalog of one book after the failing update of a valid title and an empty
author: the stored book, with the new title, is valid. -/
theorem stored_books_valid_witness :
    { theBook with title := "Новое название" } ∈ (oneBook.updateBook sampleClock (.num 1)
        (.plain [("title", .str "Новое название"), ("author", .str "")])).1.books ∧
      ValidBook 2025 { theBook with title := "Новое название" } :=
  ⟨by decide,
    (stored_books_valid 2025 oneBook
      (ReachableInYear.exec 2025 _ (.addBook sampleClock (.str "Книга") (.str "Автор")
        (.num 2000)) (ReachableInYear.new 2025) rfl)).2 sampleClock (.num 1)
      (.plain [("title", .str "Новое название"), ("author", .str "")]) rfl
      { theBook with title := "Новое название" } (by decide)⟩

end BookLibrary

namespace BookLibrary

/-! ## The messages of `updateBook` -/

theorem updateBook_result {lib : BookLibrary} {now : Clock} {bookId : JSVal}
    {updates : JSObject} {book : Book} (hfind : lib.findBook bookId = some book)
    (hfilter :
      (updates.own.map Prod.fst).filter (fun key => !allowedUpdates.contains key) = []) :
    ∃ b3 : Book, (lib.updateBook now bookId updates).2 =
      if getProp updates "title" ≠ .undefined ∧ invalidText (getProp updates "title") = true
      then .error (.validation titleUpdateMessage)
      else if getProp updates "author" ≠ .undefined ∧
          invalidText (getProp updates "author") = true
      then .error (.validation authorUpdateMessage)
      else if getProp updates "year" ≠ .undefined ∧
          invalidYear now (getProp updates "year") = true
      then .error (.validation yearMessage)
      else .ok b3 := by
  unfold updateBook
  rw [hfind]
  simp only [hfilter, List.length_nil, gt_iff_lt, lt_self_iff_false, if_false]
  by_cases c1 : getProp updates "title" ≠ .undefined ∧
      invalidText (getProp updates "title") = true
  · exact ⟨book, by simp only [if_pos c1]⟩
  · by_cases c2 : getProp updates "author" ≠ .undefined ∧
        invalidText (getProp updates "author") = true
    · exact ⟨book, by simp only [if_neg c1, if_pos c2]⟩
    · by_cases c3 : getProp updates "year" ≠ .undefined ∧
          invalidYear now (getProp updates "year") = true
      · exact ⟨book, by simp only [if_neg c1, if_neg c2, if_pos c3]⟩
      · exact ⟨_, by simp only [if_neg c1, if_neg c2, if_neg c3]; rfl⟩

/-- C18 fails as stated: for an empty title `updateBook` and `addBook` both throw, with
different messages. -/
theorem updateBook_title_message_differs :
    (oneBook.updateBook sampleClock (.num 1) (.plain [("title", .str "")])).2 =
        .error (.validation titleUpdateMessage) ∧
      (oneBook.addBook sampleClock (.str "") (.str "Автор") (.num 2000)).2 =
        .error (.validation titleRequiredMessage) ∧
      (oneBook.updateBook sampleClock (.num 1) (.plain [("title", .str "")])).2 ≠
        (oneBook.addBook sampleClock (.str "") (.str "Автор") (.num 2000)).2 := by
  decide

/-- C18 as amended: for an existing id and an update set whose own enumerable keys are among
`title`, `author`, `year`, a provided value (what reading that field from the argument
yields, through an own or an inherited property, when it is not `undefined`) is checked with
the test `addBook` applies to that field (non-blank string, integer between zero and the
current year), in the order title, author, year.  A rejected title throws the title message of `updateBook`, a rejected author
the author message of `updateBook`, a rejected year the year message of `addBook`; the call
returns exactly when every provided value passes.  `addBook` rejects a value for a field
under the same test, with its own title and author messages, which differ from those of
`updateBook` . -/
theorem updateBook_validation (lib : BookLibrary) (now : Clock) (bookId : JSVal)
    (updates : JSObject) (hex : ∃ b ∈ lib.books, bookId = .num b.id)
    (hkeys : ∀ k ∈ updates.own.map Prod.fst, k = "title" ∨ k = "author" ∨ k = "year") :
    ((lib.updateBook now bookId updates).2 = .error (.validation titleUpdateMessage) ↔
      getProp updates "title" ≠ .undefined ∧ ¬ NonBlankString (getProp updates "title")) ∧
    ((lib.updateBook now bookId updates).2 = .error (.validation authorUpdateMessage) ↔
      (getProp updates "title" = .undefined ∨ NonBlankString (getProp updates "title")) ∧
      getProp updates "author" ≠ .undefined ∧ ¬ NonBlankString (getProp updates "author")) ∧
    ((lib.updateBook now bookId updates).2 = .error (.validation yearMessage) ↔
      (getProp updates "title" = .undefined ∨ NonBlankString (getProp updates "title")) ∧
      (getProp updates "author" = .undefined ∨ NonBlankString (getProp updates "author")) ∧
      getProp updates "year" ≠ .undefined ∧ ¬ YearInRange now (getProp updates "year")) ∧
    ((∃ b, (lib.updateBook now bookId updates).2 = .ok b) ↔
      (getProp updates "title" = .undefined ∨ NonBlankString (getProp updates "title")) ∧
      (getProp updates "author" = .undefined ∨ NonBlankString (getProp updates "author")) ∧
      (getProp updates "year" = .undefined ∨ YearInRange now (getProp updates "year"))) ∧
    (∀ v a y : JSVal, ¬ NonBlankString v ↔
      (lib.addBook now v a y).2 = .error (.validation titleRequiredMessage)) ∧
    (∀ t v y : JSVal, NonBlankString t → (¬ NonBlankString v ↔
      (lib.addBook now t v y).2 = .error (.validation authorRequiredMessage))) ∧
    (∀ t a v : JSVal, NonBlankString t → NonBlankString a → (¬ YearInRange now v ↔
      (lib.addBook now t a v).2 = .error (.validation yearMessage))) ∧
    titleUpdateMessage ≠ titleRequiredMessage ∧ authorUpdateMessage ≠ authorRequiredMessage := by
  obtain ⟨book, hfind⟩ := findBook_isSome_of_mem hex
  have hfilter : (updates.own.map Prod.fst).filter (fun key => !allowedUpdates.contains key) = [] := by
    rw [List.filter_eq_nil_iff]
    intro k hk
    have := hkeys k hk
    rw [not_allowed_iff]
    tauto
  have m1 : titleUpdateMessage ≠ authorUpdateMessage := by decide
  have m2 : titleUpdateMessage ≠ yearMessage := by decide
  have m3 : authorUpdateMessage ≠ yearMessage := by decide
  have n1 : titleRequiredMessage ≠ authorRequiredMessage := by decide
  have n2 : titleRequiredMessage ≠ yearMessage := by decide
  have n3 : authorRequiredMessage ≠ yearMessage := by decide
  have hT : NonBlankString (getProp updates "title") ↔
      ¬ invalidText (getProp updates "title") = true := by
    rw [invalidText_eq_true_iff, not_not]
  have hA : NonBlankString (getProp updates "author") ↔
      ¬ invalidText (getProp updates "author") = true := by
    rw [invalidText_eq_true_iff, not_not]
  have hY : YearInRange now (getProp updates "year") ↔
      ¬ invalidYear now (getProp updates "year") = true := by
    rw [invalidYear_eq_true_iff, not_not]
  obtain ⟨b3, hres⟩ := @updateBook_result lib now bookId updates book hfind hfilter
  rw [hres, hT, hA, hY]
  refine ⟨?_, ?_, ?_, ?_, ?_, ?_, ?_, by decide, by decide⟩
  · by_cases c1 : getProp updates "title" = .undefined <;>
      by_cases c2 : invalidText (getProp updates "title") = true <;>
      by_cases c3 : getProp updates "author" = .undefined <;>
      by_cases c4 : invalidText (getProp updates "author") = true <;>
      by_cases c5 : getProp updates "year" = .undefined <;>
      by_cases c6 : invalidYear now (getProp updates "year") = true <;>
      simp [c1, c2, c3, c4, c5, c6, m1, m2, m3, Ne.symm m1, Ne.symm m2, Ne.symm m3]
  · by_cases c1 : getProp updates "title" = .undefined <;>
      by_cases c2 : invalidText (getProp updates "title") = true <;>
      by_cases c3 : getProp updates "author" = .undefined <;>
      by_cases c4 : invalidText (getProp updates "author") = true <;>
      by_cases c5 : getProp updates "year" = .undefined <;>
      by_cases c6 : invalidYear now (getProp updates "year") = true <;>
      simp [c1, c2, c3, c4, c5, c6, m1, m2, m3, Ne.symm m1, Ne.symm m2, Ne.symm m3]
  · by_cases c1 : getProp updates "title" = .undefined <;>
      by_cases c2 : invalidText (getProp updates "title") = true <;>
      by_cases c3 : getProp updates "author" = .undefined <;>
      by_cases c4 : invalidText (getProp updates "author") = true <;>
      by_cases c5 : getProp updates "year" = .undefined <;>
      by_cases c6 : invalidYear now (getProp updates "year") = true <;>
      simp [c1, c2, c3, c4, c5, c6, m1, m2, m3, Ne.symm m1, Ne.symm m2, Ne.symm m3]
  · by_cases c1 : getProp updates "title" = .undefined <;>
      by_cases c2 : invalidText (getProp updates "title") = true <;>
      by_cases c3 : getProp updates "author" = .undefined <;>
      by_cases c4 : invalidText (getProp updates "author") = true <;>
      by_cases c5 : getProp updates "year" = .undefined <;>
      by_cases c6 : invalidYear now (getProp updates "year") = true <;>
      simp [c1, c2, c3, c4, c5, c6]
  · intro v a y
    have hv := invalidText_eq_true_iff v
    by_cases h1 : invalidText v = true
    · simp [addBook, h1, hv.mp h1]
    · have hnb : NonBlankString v := by_contra fun k => h1 (hv.mpr k)
      have h1f : invalidText v = false := by simpa using h1
      unfold addBook
      simp only [h1f, Bool.false_eq_true, if_false, hnb, not_true_eq_false, false_iff]
      split_ifs <;> simp [Ne.symm n1, Ne.symm n2]
  · intro t v y ht
    have h0 : invalidText t = false := (invalidText_eq_false_iff t).mpr ht
    have hv := invalidText_eq_true_iff v
    by_cases h1 : invalidText v = true
    · simp [addBook, h0, h1, hv.mp h1]
    · have hnb : NonBlankString v := by_contra fun k => h1 (hv.mpr k)
      have h1f : invalidText v = false := by simpa using h1
      unfold addBook
      simp only [h0, h1f, Bool.false_eq_true, if_false, hnb, not_true_eq_false, false_iff]
      split_ifs <;> simp [Ne.symm n3]
  · intro t a v ht ha
    have h0 : invalidText t = false := (invalidText_eq_false_iff t).mpr ht
    have h0a : invalidText a = false := (invalidText_eq_false_iff a).mpr ha
    have hv := invalidYear_eq_true_iff now v
    by_cases h1 : invalidYear now v = true
    · simp [addBook, h0, h0a, h1, hv.mp h1]
    · have hnb : YearInRange now v := by_contra fun k => h1 (hv.mpr k)
      have h1f : invalidYear now v = false := by simpa using h1
      simp [addBook, h0, h0a, h1f, hnb]

/-- C18 as amended, on the catalog of one book: an update with a blank author throws the
author message of `updateBook`, and an update whose empty title is inherited from the
prototype of the argument throws the title message of `updateBook` . -/
theorem updateBook_validation_witness :
    (oneBook.updateBook sampleClock (.num 1) (.plain [("author", .str "  ")])).2 =
        .error (.validation authorUpdateMessage) ∧
      (oneBook.updateBook sampleClock (.num 1) (inheritedTitle (.str ""))).2 =
        .error (.validation titleUpdateMessage) :=
  ⟨(updateBook_validation oneBook sampleClock (.num 1) (.plain [("author", .str "  ")])
      ⟨theBook, by decide, by decide⟩ (by decide)).2.1.mpr (by decide),
    (updateBook_validation oneBook sampleClock (.num 1) (inheritedTitle (.str ""))
      ⟨theBook, by decide, by decide⟩ (by decide)).1.mpr (by decide)⟩

end BookLibrary

namespace BookLibrary

/-! ## Searching and sorting -/

/-- C15: `findBooksByAuthor` and `findBooksByTitle` return the empty list for a query that is
the empty string or not a string; for any other string they return exactly the stored books
whose lower-cased author (title) contains the lower-cased and then trimmed query, each as
often as it is stored and in catalog order, a sublist of `getBooks()`; so a non-empty query
that trims to the empty string returns every book. -/
theorem findBooks_spec (toLowerCase : String → String) (lib : BookLibrary) :
    (∀ query : JSVal, (query = .str "" ∨ ∀ s, query ≠ .str s) →
      findBooksByAuthor toLowerCase lib query = [] ∧
      findBooksByTitle toLowerCase lib query = []) ∧
    (∀ s : String, s ≠ "" →
      findBooksByAuthor toLowerCase lib (.str s) = lib.getBooks.filter
        (fun b => decide ((jsTrim (toLowerCase s)).data <:+: (toLowerCase b.author).data)) ∧
      findBooksByTitle toLowerCase lib (.str s) = lib.getBooks.filter
        (fun b => decide ((jsTrim (toLowerCase s)).data <:+: (toLowerCase b.title).data)) ∧
      (findBooksByAuthor toLowerCase lib (.str s)).Sublist lib.getBooks ∧
      (findBooksByTitle toLowerCase lib (.str s)).Sublist lib.getBooks ∧
      (∀ b, (jsTrim (toLowerCase s)).data <:+: (toLowerCase b.author).data →
        (findBooksByAuthor toLowerCase lib (.str s)).count b = lib.getBooks.count b) ∧
      (∀ b, ¬ (jsTrim (toLowerCase s)).data <:+: (toLowerCase b.author).data →
        b ∉ findBooksByAuthor toLowerCase lib (.str s)) ∧
      (∀ b, (jsTrim (toLowerCase s)).data <:+: (toLowerCase b.title).data →
        (findBooksByTitle toLowerCase lib (.str s)).count b = lib.getBooks.count b) ∧
      (∀ b, ¬ (jsTrim (toLowerCase s)).data <:+: (toLowerCase b.title).data →
        b ∉ findBooksByTitle toLowerCase lib (.str s)) ∧
      (jsTrim (toLowerCase s) = "" →
        findBooksByAuthor toLowerCase lib (.str s) = lib.getBooks ∧
        findBooksByTitle toLowerCase lib (.str s) = lib.getBooks)) := by
  constructor
  · intro query hq
    rcases hq with hq | hq
    · subst hq
      simp [findBooksByAuthor, findBooksByTitle, JSVal.truthy]
    · cases query <;>
        simp [findBooksByAuthor, findBooksByTitle, JSVal.truthy, JSVal.typeOf] at hq ⊢
  · intro s hs
    have eA : findBooksByAuthor toLowerCase lib (.str s) = lib.getBooks.filter
        (fun b => decide ((jsTrim (toLowerCase s)).data <:+: (toLowerCase b.author).data)) := by
      simp [findBooksByAuthor, JSVal.truthy, JSVal.typeOf, JSVal.text, hs, getBooks,
        jsIncludes]
    have eT : findBooksByTitle toLowerCase lib (.str s) = lib.getBooks.filter
        (fun b => decide ((jsTrim (toLowerCase s)).data <:+: (toLowerCase b.title).data)) := by
      simp [findBooksByTitle, JSVal.truthy, JSVal.typeOf, JSVal.text, hs, getBooks,
        jsIncludes]
    refine ⟨eA, eT, ?_, ?_, ?_, ?_, ?_, ?_, ?_⟩
    · rw [eA]; exact List.filter_sublist _
    · rw [eT]; exact List.filter_sublist _
    · intro b hb
      rw [eA, List.count_filter]
      simpa using hb
    · intro b hb hmem
      rw [eA] at hmem
      have := (List.mem_filter.mp hmem).2
      exact hb (by simpa using this)
    · intro b hb
      rw [eT, List.count_filter]
      simpa using hb
    · intro b hb hmem
      rw [eT] at hmem
      have := (List.mem_filter.mp hmem).2
      exact hb (by simpa using this)
    · intro he
      rw [eA, eT, he]
      constructor <;>
      · rw [List.filter_eq_self]
        intro b _
        simp

/-- C15, with the identity as case mapping on the catalog of one book: the empty query finds
nothing and the blank query finds every book. -/
theorem findBooks_spec_witness :
    findBooksByAuthor id oneBook (.str "") = [] ∧
      findBooksByAuthor id oneBook (.str "  ") = oneBook.getBooks :=
  have h := findBooks_spec id oneBook
  ⟨(h.1 (.str "") (Or.inl rfl)).1, ((h.2 "  " (by decide)).2.2.2.2.2.2.2.2 (by decide)).1⟩

theorem orderedInsert_yearThenPosition (a : Nat × Book) :
    ∀ l : List (Nat × Book), l.Pairwise YearThenPosition → (∀ c ∈ l, a.1 < c.1) →
      (l.orderedInsert (fun x y => x.2.year ≤ y.2.year) a).Pairwise YearThenPosition := by
  intro l
  induction l with
  | nil => intro _ _; simp
  | cons b bs ih =>
    intro hp hlt
    rw [List.pairwise_cons] at hp
    rw [List.orderedInsert]
    by_cases hab : a.2.year ≤ b.2.year
    · rw [if_pos hab, List.pairwise_cons]
      refine ⟨?_, List.pairwise_cons.mpr hp⟩
      intro c hc
      have hyc : a.2.year ≤ c.2.year := by
        rcases List.mem_cons.mp hc with hc | hc
        · rw [hc]; exact hab
        · rcases hp.1 c hc with h | h
          · exact le_trans hab (le_of_lt h)
          · exact h.1 ▸ hab
      rcases lt_or_eq_of_le hyc with h | h
      · exact Or.inl h
      · exact Or.inr ⟨h, hlt c hc⟩
    · rw [if_neg hab, List.pairwise_cons]
      refine ⟨?_, ih hp.2 (fun c hc => hlt c (List.mem_cons_of_mem _ hc))⟩
      intro c hc
      rcases (List.mem_orderedInsert _).mp hc with hc | hc
      · rw [hc]; exact Or.inl (lt_of_not_le hab)
      · exact hp.1 c hc

theorem insertionSort_enumFrom_yearThenPosition :
    ∀ (l : List Book) (n : Nat),
      ((l.enumFrom n).insertionSort (fun x y => x.2.year ≤ y.2.year)).Pairwise
        YearThenPosition := by
  intro l
  induction l with
  | nil => intro n; simp
  | cons b bs ih =>
    intro n
    rw [List.enumFrom_cons, List.insertionSort]
    refine orderedInsert_yearThenPosition (n, b) _ (ih (n + 1)) ?_
    intro c hc
    rw [List.mem_insertionSort] at hc
    have := List.le_fst_of_mem_enumFrom hc
    exact this

/-- C16: the ascending result of `getBooksSortedByYear` (any order other than `'desc'`, the
default included) holds the stored books, each once (a permutation of the catalog), ordered
by year and, for equal years, by catalog position, so it is non-decreasing in year and
stable; the result for `'desc'` is the reverse of it.  The method returns a list and no new
state: the catalog order is untouched. -/
theorem getBooksSortedByYear_spec (lib : BookLibrary) (order : JSVal)
    (h : order ≠ .str "desc") :
    lib.getBooksSortedByYear order = lib.sortedByYear.map (fun p => StoredRef.mk p.1) ∧
    lib.getBooksSortedByYear (.str "desc") =
      (lib.getBooksSortedByYear order).reverse ∧
    (lib.getBooksSortedByYear order).map lib.deref = lib.sortedByYear.map (fun p => some p.2) ∧
    (lib.sortedByYear.map Prod.snd).Perm lib.books ∧
    lib.sortedByYear.Pairwise YearThenPosition ∧
    (lib.sortedByYear.map (fun p => p.2.year)).Pairwise (· ≤ ·) ∧
    (lib.sortedByYear.reverse.map (fun p => p.2.year)).Pairwise (· ≥ ·) := by
  have hasc : lib.getBooksSortedByYear order =
      lib.sortedByYear.map (fun p => StoredRef.mk p.1) := by
    unfold getBooksSortedByYear
    by_cases hu : order = .undefined
    · simp [hu]
    · simp [hu, h]
  have hpair : lib.sortedByYear.Pairwise YearThenPosition :=
    insertionSort_enumFrom_yearThenPosition lib.books 0
  have hle : (lib.sortedByYear.map (fun p => p.2.year)).Pairwise (· ≤ ·) := by
    rw [List.pairwise_map]
    refine hpair.imp ?_
    intro a b hab
    rcases hab with hab | hab
    · exact le_of_lt hab
    · exact le_of_eq hab.1
  refine ⟨hasc, ?_, ?_, ?_, hpair, hle, ?_⟩
  · rw [hasc]
    simp [getBooksSortedByYear, List.map_reverse]
  · rw [hasc, List.map_map]
    apply List.map_congr_left
    intro p hp
    have hp' : p ∈ lib.books.enum := (List.mem_insertionSort _).mp hp
    have : lib.books[p.1]? = some p.2 := List.mk_mem_enum_iff_getElem?.mp hp'
    simp [deref, this]
  · have h1 : (lib.sortedByYear.map Prod.snd).Perm (lib.books.enum.map Prod.snd) :=
      (List.perm_insertionSort _ _).map _
    rw [List.enum_map_snd] at h1
    exact h1
  · rw [List.map_reverse, List.pairwise_reverse]
    exact hle

/-- C16, on the catalog of four books with the years 2020, 2000, 2020, 2000: ascending, the
two books of 2000 come first and the two of 2020 after them, each pair in catalog order;
descending is the reverse, so each pair is in reverse catalog order. -/
theorem getBooksSortedByYear_spec_witness :
    fourBooks.getBooksSortedByYear (.str "asc") =
        [StoredRef.mk 1, StoredRef.mk 3, StoredRef.mk 0, StoredRef.mk 2] ∧
      fourBooks.getBooksSortedByYear (.str "desc") =
        [StoredRef.mk 2, StoredRef.mk 0, StoredRef.mk 3, StoredRef.mk 1] ∧
      ((fourBooks.getBooksSortedByYear (.str "asc")).map fourBooks.deref).map
          (Option.map (fun b => (b.title, b.year))) =
        [some ("Книга 2", 2000), some ("Книга 4", 2000), some ("Книга 1", 2020),
         some ("Книга 3", 2020)] ∧
      fourBooks.getBooks.map (fun b => (b.title, b.year)) =
        [("Книга 1", 2020), ("Книга 2", 2000), ("Книга 3", 2020), ("Книга 4", 2000)] ∧
      (fourBooks.sortedByYear.map Prod.snd).Perm fourBooks.books ∧
      fourBooks.sortedByYear.Pairwise YearThenPosition :=
  have h := getBooksSortedByYear_spec fourBooks (.str "asc") (by decide)
  ⟨h.1.trans (by decide), h.2.1.trans (by decide), by decide, by decide, h.2.2.2.1,
    h.2.2.2.2.1⟩

end BookLibrary

namespace BookLibrary

/-! ## Statistics -/

theorem statistics_counts (lib : BookLibrary) :
    lib.getStatistics.total = lib.getBooksCount ∧
      lib.getStatistics.read = (lib.books.filter (fun b => b.isRead)).length ∧
      (lib.getStatistics.read : Int) + lib.getStatistics.unread = lib.getStatistics.total ∧
      lib.getStatistics.read ≤ lib.getStatistics.total ∧
      (lib.getStatistics.total = 0 → lib.getStatistics.percentage = 0) := by
  refine ⟨rfl, rfl, ?_, List.length_filter_le _ _, ?_⟩
  · simp [getStatistics]
  · intro h
    have h0 : lib.books.length = 0 := h
    simp [getStatistics, percentageOf, h0]

set_option maxRecDepth 100000 in
/-- C13: the percentage is computed in double precision.  On a catalog of forty books of
which twenty-three are read, `total` is 40, `read` is 23 and `unread` is 17, but
`(read / total) * 100` is the double just below 57.5 and `percentage` is 57, while
100 * 23 / 40 = 57.5 rounds to 58. -/
theorem percentage_of_23_of_40 :
    fortyBooks.getStatistics.total = 40 ∧ fortyBooks.getStatistics.read = 23 ∧
      fortyBooks.getStatistics.unread = 17 ∧
      (toDouble 23 40).mulNat 100 = { mant := 8092405580431359, exp := -47 } ∧
      2 * 8092405580431359 < 115 * 2 ^ 47 ∧
      fortyBooks.getStatistics.percentage = 57 ∧ roundHalfUp (100 * 23) 40 = 58 := by
  decide

/-- C14: the authors are grouped in a plain object.  On a catalog whose authors are "Б" and
then "1", each with one book, `popularAuthor` is "1", the author of the later book, because
an array-index key is enumerated first; on a catalog whose only author is "constructor",
`authorsCount` is 0 and `popularAuthor` is the placeholder, because the inherited property
is found and no own property is created.  On the empty catalog the result is as claimed. -/
theorem popularAuthor_of_plain_object_keys :
    twoAuthors.getBooks.map Book.author = ["Б", "1"] ∧
      countByAuthor twoAuthors "Б" = 1 ∧ countByAuthor twoAuthors "1" = 1 ∧
      twoAuthors.getStatistics.popularAuthor = "1" ∧
      constructorAuthor.getBooks.map Book.author = ["constructor"] ∧
      constructorAuthor.getStatistics.authorsCount = 0 ∧
      constructorAuthor.getStatistics.popularAuthor = noDataText ∧
      BookLibrary.new.getStatistics =
        { total := 0, read := 0, unread := 0, percentage := 0, authorsCount := 0,
          popularAuthor := noDataText, booksPerAuthor := .zero } := by
  decide

end BookLibrary
